import Mathlib

/-!
# Verification of the GAMDL_tg multi-scope sliding-window rate limiter

Shallow embedding of `gamdl_telegram/rate_limiter.py`.

Timestamps (`time.time()` values) are modelled as rationals `ℚ`; Python
dictionaries are modelled as association lists with unique keys, which
preserves both lookup/update semantics and insertion order.  Methods that
mutate `self` are modelled as functions from the limiter state to a pair
of (return value, new state).
-/

set_option autoImplicit false

namespace Gamdl

/-- A `time.time()` value: real time in seconds, possibly fractional. -/
abbrev Timestamp := ℚ

/-- A bucket map `Dict[float, int]`: requests counted per observed timestamp. -/
abbrev Buckets := List (Timestamp × ℕ)

/-- Dictionary lookup `d.get(k)` / `k in d`, on an association list. -/
def alistFind {α β : Type} [DecidableEq α] (k : α) : List (α × β) → Option β
  | [] => none
  | p :: rest => if p.1 = k then some p.2 else alistFind k rest

/-- Dictionary update `d[k] = v`, on an association list (replaces the
existing entry in place, or appends a new one, as a Python dict does). -/
def alistSet {α β : Type} [DecidableEq α] (k : α) (v : β) : List (α × β) → List (α × β)
  | [] => [(k, v)]
  | p :: rest => if p.1 = k then (k, v) :: rest else p :: alistSet k v rest

/-- `RateLimiter._cleanup_expired_requests`: keep only the entries whose
timestamp satisfies `current_time - timestamp <= window`. -/
def cleanupExpired (d : Buckets) (window : ℚ) (t : Timestamp) : Buckets :=
  match d with
  | [] => []
  | p :: rest =>
    if t - p.1 ≤ window then p :: cleanupExpired rest window t
    else cleanupExpired rest window t

/-- `sum(d.values())` for a bucket map. -/
def sumValues : Buckets → ℕ
  | [] => 0
  | p :: rest => p.2 + sumValues rest

/-- `d[t] = d.get(t, 0) + 1`: record one more request at timestamp `t`. -/
def incrB (d : Buckets) (t : Timestamp) : Buckets :=
  alistSet t ((alistFind t d).getD 0 + 1) d

/-- The state of a `RateLimiter` instance: the six configuration fields and
the three bucket structures set up by `RateLimiter.__init__`. -/
structure RateLimiter where
  global_limit : ℕ
  global_window : ℚ
  user_limit : ℕ
  user_window : ℚ
  ip_limit : ℕ
  ip_window : ℚ
  global_requests : Buckets
  user_requests : List (ℤ × Buckets)
  ip_requests : List (String × Buckets)
deriving DecidableEq

/-- `RateLimiter.__init__`: store the configuration, start with empty maps. -/
def RateLimiter.init (gl : ℕ) (gw : ℚ) (ul : ℕ) (uw : ℚ) (il : ℕ) (iw : ℚ) :
    RateLimiter :=
  { global_limit := gl, global_window := gw
    user_limit := ul, user_window := uw
    ip_limit := il, ip_window := iw
    global_requests := [], user_requests := [], ip_requests := [] }

/-- The bucket map currently stored for a user (empty if the user is not
tracked), i.e. `self.user_requests.get(user_id, {})`. -/
def userBucketsOf (rl : RateLimiter) (user_id : ℤ) : Buckets :=
  (alistFind user_id rl.user_requests).getD []

/-- The bucket map currently stored for an IP (empty if untracked). -/
def ipBucketsOf (rl : RateLimiter) (ip_address : String) : Buckets :=
  (alistFind ip_address rl.ip_requests).getD []

/-- The Global Rate Limiting block of `RateLimiter.is_allowed`: commit the
sweep of expired entries, deny without incrementing when the retained sum has
reached `global_limit`, otherwise commit the increment for `t`. -/
def globalStep (rl : RateLimiter) (t : Timestamp) : Bool × RateLimiter :=
  let cleaned := cleanupExpired rl.global_requests rl.global_window t
  if rl.global_limit ≤ sumValues cleaned then
    (false, { rl with global_requests := cleaned })
  else
    (true, { rl with global_requests := incrB cleaned t })

/-- The User-specific Rate Limiting block of `RateLimiter.is_allowed`:
initialize the user's entry if absent, sweep a local copy, deny without
writing the sweep back, or write back the swept-and-incremented map. -/
def userStep (rl : RateLimiter) (t : Timestamp) : Option ℤ → Bool × RateLimiter
  | none => (true, rl)
  | some user_id =>
    let stored :=
      if (alistFind user_id rl.user_requests).isSome then rl.user_requests
      else alistSet user_id [] rl.user_requests
    let user_reqs := (alistFind user_id stored).getD []
    let cleaned := cleanupExpired user_reqs rl.user_window t
    if rl.user_limit ≤ sumValues cleaned then
      (false, { rl with user_requests := stored })
    else
      (true, { rl with user_requests := alistSet user_id (incrB cleaned t) stored })

/-- The IP-based Rate Limiting block of `RateLimiter.is_allowed`. -/
def ipStep (rl : RateLimiter) (t : Timestamp) : Option String → Bool × RateLimiter
  | none => (true, rl)
  | some ip_address =>
    let stored :=
      if (alistFind ip_address rl.ip_requests).isSome then rl.ip_requests
      else alistSet ip_address [] rl.ip_requests
    let ip_reqs := (alistFind ip_address stored).getD []
    let cleaned := cleanupExpired ip_reqs rl.ip_window t
    if rl.ip_limit ≤ sumValues cleaned then
      (false, { rl with ip_requests := stored })
    else
      (true, { rl with ip_requests := alistSet ip_address (incrB cleaned t) stored })

/-- `RateLimiter.is_allowed(user_id, ip_address)` at current time `t`:
global scope first, then the user scope if a user id was supplied, then the
IP scope if an IP was supplied; any denial returns `False` immediately. -/
def is_allowed (rl : RateLimiter) (t : Timestamp)
    (user_id : Option ℤ) (ip_address : Option String) : Bool × RateLimiter :=
  let rG := globalStep rl t
  if rG.1 then
    let rU := userStep rG.2 t user_id
    if rU.1 then ipStep rU.2 t ip_address
    else (false, rU.2)
  else (false, rG.2)

/-- `RateLimiter.get_wait_time(user_id, ip_address)` at current time `t`.
The method only reads `self` (it sweeps copies of the stored maps), so the
state component of the result is the unchanged input state. -/
def get_wait_time (rl : RateLimiter) (t : Timestamp)
    (user_id : Option ℤ) (ip_address : Option String) : ℚ × RateLimiter :=
  let max_wait : ℚ := 0
  let global_reqs := cleanupExpired rl.global_requests rl.global_window t
  let max_wait :=
    if rl.global_limit ≤ sumValues global_reqs then max max_wait rl.global_window
    else max_wait
  let max_wait :=
    match user_id with
    | none => max_wait
    | some uid =>
      match alistFind uid rl.user_requests with
      | none => max_wait
      | some ur =>
        if rl.user_limit ≤ sumValues (cleanupExpired ur rl.user_window t) then
          max max_wait rl.user_window
        else max_wait
  let max_wait :=
    match ip_address with
    | none => max_wait
    | some ip =>
      match alistFind ip rl.ip_requests with
      | none => max_wait
      | some ir =>
        if rl.ip_limit ≤ sumValues (cleanupExpired ir rl.ip_window t) then
          max max_wait rl.ip_window
        else max_wait
  (max_wait, rl)

/-- The value raised by the throttle wrapper (`RuntimeError("Rate limit
exceeded")`): it carries only its message string. -/
structure RaisedError where
  message : String
deriving DecidableEq

/-- One invocation of a callable wrapped by `RateLimiter.rate_limit`. -/
structure ThrottleResult (α : Type) where
  value : Option α
  requests : Buckets
  raised : Option RaisedError
  logged : Option String
deriving DecidableEq

/-- The `wrapper` closure produced by `RateLimiter.rate_limit(limit, window)`
around a callable `f` named `funcName`, invoked at time `t` with private
bucket state `requests`: sweep (committed via `nonlocal` even on denial);
if the retained sum is at/over `limit`, log a warning naming the function and
raise `RuntimeError("Rate limit exceeded")` without calling `f`; otherwise
increment the bucket for `t`, call `f` and return its result unchanged. -/
def throttleWrapper {α : Type} (limit : ℕ) (window : ℚ) (funcName : String)
    (f : Unit → α) (requests : Buckets) (t : Timestamp) : ThrottleResult α :=
  let requests := cleanupExpired requests window t
  if limit ≤ sumValues requests then
    { value := none
      requests := requests
      raised := some ⟨"Rate limit exceeded"⟩
      logged := some ("Function rate limit exceeded: " ++ funcName) }
  else
    { value := some (f ())
      requests := incrB requests t
      raised := none
      logged := none }

/-- The per-scope admission kernel shared by all four scopes: sweep, deny at
or over the limit, otherwise increment. -/
def admitB (limit : ℕ) (window : ℚ) (d : Buckets) (t : Timestamp) : Bool × Buckets :=
  let cleaned := cleanupExpired d window t
  if limit ≤ sumValues cleaned then (false, cleaned)
  else (true, incrB cleaned t)

/-- Iterate `admitB` over a list of call times. -/
def admitRun (limit : ℕ) (window : ℚ) (d : Buckets) : List Timestamp → List Bool × Buckets
  | [] => ([], d)
  | t :: ts =>
    let r := admitB limit window d t
    let rest := admitRun limit window r.2 ts
    (r.1 :: rest.1, rest.2)

/-- Iterate `is_allowed` with a fixed user id and IP over a list of times. -/
def runSame (rl : RateLimiter) (user_id : Option ℤ) (ip_address : Option String) :
    List Timestamp → List Bool × RateLimiter
  | [] => ([], rl)
  | t :: ts =>
    let r := is_allowed rl t user_id ip_address
    let rest := runSame r.2 user_id ip_address ts
    (r.1 :: rest.1, rest.2)

/-- One observed `is_allowed` call: its time and optional keys. -/
structure Call where
  t : Timestamp
  uid : Option ℤ
  ip : Option String

/-- Iterate `is_allowed` over a list of arbitrary calls. -/
def runCalls (rl : RateLimiter) : List Call → List Bool × RateLimiter
  | [] => ([], rl)
  | c :: cs =>
    let r := is_allowed rl c.t c.uid c.ip
    let rest := runCalls r.2 cs
    (r.1 :: rest.1, rest.2)

/-- Iterate the throttle wrapper over a list of call times, recording for
each call whether the wrapped callable executed (no error raised). -/
def throttleRun {α : Type} (limit : ℕ) (window : ℚ) (funcName : String)
    (f : Unit → α) (requests : Buckets) : List Timestamp → List Bool × Buckets
  | [] => ([], requests)
  | t :: ts =>
    let r := throttleWrapper limit window funcName f requests t
    let rest := throttleRun limit window funcName f r.requests ts
    (r.raised.isNone :: rest.1, rest.2)

/-- `rl'` has the same six configuration fields as `rl`. -/
def sameConfig (rl rl' : RateLimiter) : Prop :=
  rl'.global_limit = rl.global_limit ∧ rl'.global_window = rl.global_window ∧
  rl'.user_limit = rl.user_limit ∧ rl'.user_window = rl.user_window ∧
  rl'.ip_limit = rl.ip_limit ∧ rl'.ip_window = rl.ip_window

/-- The sliding-window bound of the data-model invariant, at time `t`: for
each scope and every tracked key, the sum of the key's bucket counts whose
timestamps lie within `window` seconds of `t` is at most the scope's
limit. -/
def InWindowBound (rl : RateLimiter) (t : Timestamp) : Prop :=
  sumValues (cleanupExpired rl.global_requests rl.global_window t) ≤ rl.global_limit ∧
  (∀ uid : ℤ,
    sumValues (cleanupExpired (userBucketsOf rl uid) rl.user_window t) ≤ rl.user_limit) ∧
  (∀ ip : String,
    sumValues (cleanupExpired (ipBucketsOf rl ip) rl.ip_window t) ≤ rl.ip_limit)

/-- The global scope's contribution to `get_wait_time`: the full window when
the retained sum is at or over the limit, zero otherwise (spec §4.2). -/
def globalScopeWait (rl : RateLimiter) (t : Timestamp) : ℚ :=
  if rl.global_limit ≤ sumValues (cleanupExpired rl.global_requests rl.global_window t)
  then rl.global_window else 0

/-- The user scope's contribution to `get_wait_time`.  As in the code, an
absent user id or an untracked user contributes zero. -/
def userScopeWait (rl : RateLimiter) (t : Timestamp) : Option ℤ → ℚ
  | none => 0
  | some uid =>
    match alistFind uid rl.user_requests with
    | none => 0
    | some ur =>
      if rl.user_limit ≤ sumValues (cleanupExpired ur rl.user_window t)
      then rl.user_window else 0

/-- The IP scope's contribution to `get_wait_time`. -/
def ipScopeWait (rl : RateLimiter) (t : Timestamp) : Option String → ℚ
  | none => 0
  | some ip =>
    match alistFind ip rl.ip_requests with
    | none => 0
    | some ir =>
      if rl.ip_limit ≤ sumValues (cleanupExpired ir rl.ip_window t)
      then rl.ip_window else 0

/-! ## Basic lemmas about the dictionary operations -/

theorem alistFind_set_self {α β : Type} [DecidableEq α] (k : α) (v : β)
    (l : List (α × β)) : alistFind k (alistSet k v l) = some v := by
  induction l with
  | nil => simp [alistSet, alistFind]
  | cons p rest ih =>
    by_cases h : p.1 = k
    · simp [alistSet, h, alistFind]
    · simp [alistSet, h, alistFind, ih]

theorem alistFind_set_ne {α β : Type} [DecidableEq α] {k x : α} (v : β)
    (l : List (α × β)) (hne : x ≠ k) :
    alistFind x (alistSet k v l) = alistFind x l := by
  have hkx : ¬ k = x := fun h => hne h.symm
  induction l with
  | nil => simp only [alistSet, alistFind, if_neg hkx]
  | cons p rest ih =>
    by_cases h : p.1 = k
    · have hpx : ¬ p.1 = x := fun h' => hne (h'.symm.trans h)
      simp only [alistSet, if_pos h, alistFind, if_neg hkx, if_neg hpx]
    · simp only [alistSet, if_neg h, alistFind, ih]

theorem mem_alistSet {α β : Type} [DecidableEq α] {k : α} {v : β}
    {l : List (α × β)} {p : α × β} (hp : p ∈ alistSet k v l) :
    p = (k, v) ∨ p ∈ l := by
  induction l with
  | nil => simpa [alistSet] using hp
  | cons q rest ih =>
    by_cases h : q.1 = k
    · simp only [alistSet, if_pos h, List.mem_cons] at hp
      rcases hp with h1 | h1
      · exact Or.inl h1
      · exact Or.inr (List.mem_cons_of_mem _ h1)
    · simp only [alistSet, if_neg h, List.mem_cons] at hp
      rcases hp with h1 | h1
      · exact Or.inr (List.mem_cons.2 (Or.inl h1))
      · rcases ih h1 with h2 | h2
        · exact Or.inl h2
        · exact Or.inr (List.mem_cons_of_mem _ h2)

/-! ## Basic lemmas about sweep, sum and increment -/

theorem mem_cleanup {d : Buckets} {w t : ℚ} {p : Timestamp × ℕ}
    (hp : p ∈ cleanupExpired d w t) : p ∈ d ∧ t - p.1 ≤ w := by
  induction d with
  | nil => simp [cleanupExpired] at hp
  | cons q rest ih =>
    by_cases h : t - q.1 ≤ w
    · simp only [cleanupExpired, if_pos h, List.mem_cons] at hp
      rcases hp with h1 | h1
      · exact ⟨List.mem_cons.2 (Or.inl h1), h1 ▸ h⟩
      · exact ⟨List.mem_cons_of_mem _ (ih h1).1, (ih h1).2⟩
    · simp only [cleanupExpired, if_neg h] at hp
      exact ⟨List.mem_cons_of_mem _ (ih hp).1, (ih hp).2⟩

theorem cleanup_eq_self {d : Buckets} {w t : ℚ}
    (h : ∀ p ∈ d, t - p.1 ≤ w) : cleanupExpired d w t = d := by
  induction d with
  | nil => rfl
  | cons q rest ih =>
    have hq : t - q.1 ≤ w := h q (List.mem_cons_self _ _)
    simp only [cleanupExpired, if_pos hq]
    exact congrArg _ (ih fun p hp => h p (List.mem_cons_of_mem _ hp))

theorem cleanup_idem (d : Buckets) (w t : ℚ) :
    cleanupExpired (cleanupExpired d w t) w t = cleanupExpired d w t :=
  cleanup_eq_self fun _ hp => (mem_cleanup hp).2

theorem sumValues_cleanup_le (d : Buckets) (w t : ℚ) :
    sumValues (cleanupExpired d w t) ≤ sumValues d := by
  induction d with
  | nil => exact Nat.le_refl _
  | cons q rest ih =>
    by_cases h : t - q.1 ≤ w
    · simp only [cleanupExpired, if_pos h, sumValues]
      exact Nat.add_le_add_left ih _
    · simp only [cleanupExpired, if_neg h, sumValues]
      exact Nat.le_trans ih (Nat.le_add_left _ _)

theorem sumValues_cleanup_monotime {d : Buckets} {w : ℚ} {t t' : ℚ}
    (htt : t ≤ t') :
    sumValues (cleanupExpired d w t') ≤ sumValues (cleanupExpired d w t) := by
  induction d with
  | nil => exact Nat.le_refl _
  | cons q rest ih =>
    by_cases h' : t' - q.1 ≤ w
    · have h : t - q.1 ≤ w := le_trans (by linarith) h'
      simp only [cleanupExpired, if_pos h, if_pos h', sumValues]
      exact Nat.add_le_add_left ih _
    · by_cases h : t - q.1 ≤ w
      · simp only [cleanupExpired, if_neg h', if_pos h, sumValues]
        exact Nat.le_trans ih (Nat.le_add_left _ _)
      · simp only [cleanupExpired, if_neg h', if_neg h]
        exact ih

theorem sumValues_incr (d : Buckets) (t : Timestamp) :
    sumValues (incrB d t) = sumValues d + 1 := by
  induction d with
  | nil => simp [incrB, alistSet, alistFind, sumValues]
  | cons q rest ih =>
    by_cases h : q.1 = t
    · simp only [incrB, alistSet, alistFind, if_pos h, sumValues, Option.getD_some]
      omega
    · simp only [incrB, alistSet, alistFind, if_neg h, sumValues] at ih ⊢
      omega

theorem mem_incr {d : Buckets} {t : Timestamp} {p : Timestamp × ℕ}
    (hp : p ∈ incrB d t) : p.1 = t ∨ p ∈ d := by
  rcases mem_alistSet hp with h | h
  · exact Or.inl (by rw [h])
  · exact Or.inr h

/-! ## Characterizations of the three scope blocks of `is_allowed` -/

theorem globalStep_char (rl : RateLimiter) (t : Timestamp) :
    globalStep rl t =
      ((admitB rl.global_limit rl.global_window rl.global_requests t).1,
       { rl with
         global_requests := (admitB rl.global_limit rl.global_window rl.global_requests t).2 }) := by
  by_cases h : rl.global_limit ≤ sumValues (cleanupExpired rl.global_requests rl.global_window t)
  · simp [globalStep, admitB, if_pos h]
  · simp [globalStep, admitB, if_neg h]

/-- The map stored for `uid` after the initialize-if-absent step, seen
through `getD []`, is just `userBucketsOf rl uid`. -/
theorem userBucketsOf_init_self (rl : RateLimiter) (uid : ℤ) :
    (alistFind uid (if (alistFind uid rl.user_requests).isSome then rl.user_requests
                    else alistSet uid [] rl.user_requests)).getD []
      = userBucketsOf rl uid := by
  cases hf : alistFind uid rl.user_requests with
  | some m => simp [hf, userBucketsOf]
  | none => simp [hf, alistFind_set_self, userBucketsOf]

theorem ipBucketsOf_init_self (rl : RateLimiter) (ip : String) :
    (alistFind ip (if (alistFind ip rl.ip_requests).isSome then rl.ip_requests
                   else alistSet ip [] rl.ip_requests)).getD []
      = ipBucketsOf rl ip := by
  cases hf : alistFind ip rl.ip_requests with
  | some m => simp [hf, ipBucketsOf]
  | none => simp [hf, alistFind_set_self, ipBucketsOf]

theorem userStep_some_char (rl : RateLimiter) (t : Timestamp) (uid : ℤ) :
    userStep rl t (some uid) =
      (let a := admitB rl.user_limit rl.user_window (userBucketsOf rl uid) t
       let stored := if (alistFind uid rl.user_requests).isSome then rl.user_requests
                     else alistSet uid [] rl.user_requests
       (a.1, { rl with
               user_requests := if a.1 then alistSet uid a.2 stored else stored })) := by
  have hv := userBucketsOf_init_self rl uid
  by_cases h : rl.user_limit ≤ sumValues (cleanupExpired (userBucketsOf rl uid) rl.user_window t)
  · simp only [userStep, admitB, hv, if_pos h]
    simp
  · simp only [userStep, admitB, hv, if_neg h]
    simp

theorem ipStep_some_char (rl : RateLimiter) (t : Timestamp) (ip : String) :
    ipStep rl t (some ip) =
      (let a := admitB rl.ip_limit rl.ip_window (ipBucketsOf rl ip) t
       let stored := if (alistFind ip rl.ip_requests).isSome then rl.ip_requests
                     else alistSet ip [] rl.ip_requests
       (a.1, { rl with
               ip_requests := if a.1 then alistSet ip a.2 stored else stored })) := by
  have hv := ipBucketsOf_init_self rl ip
  by_cases h : rl.ip_limit ≤ sumValues (cleanupExpired (ipBucketsOf rl ip) rl.ip_window t)
  · simp only [ipStep, admitB, hv, if_pos h]
    simp
  · simp only [ipStep, admitB, hv, if_neg h]
    simp

/-! ### Frame facts: each scope block only touches its own map -/

theorem userStep_frame (rl : RateLimiter) (t : Timestamp) (u : Option ℤ) :
    (userStep rl t u).2.global_requests = rl.global_requests ∧
    (userStep rl t u).2.ip_requests = rl.ip_requests ∧
    sameConfig rl (userStep rl t u).2 := by
  cases u with
  | none => exact ⟨rfl, rfl, rfl, rfl, rfl, rfl, rfl, rfl⟩
  | some uid =>
    simp only [userStep]
    split <;> split <;> exact ⟨rfl, rfl, rfl, rfl, rfl, rfl, rfl, rfl⟩

theorem ipStep_frame (rl : RateLimiter) (t : Timestamp) (i : Option String) :
    (ipStep rl t i).2.global_requests = rl.global_requests ∧
    (ipStep rl t i).2.user_requests = rl.user_requests ∧
    sameConfig rl (ipStep rl t i).2 := by
  cases i with
  | none => exact ⟨rfl, rfl, rfl, rfl, rfl, rfl, rfl, rfl⟩
  | some ip =>
    simp only [ipStep]
    split <;> split <;> exact ⟨rfl, rfl, rfl, rfl, rfl, rfl, rfl, rfl⟩

theorem globalStep_frame (rl : RateLimiter) (t : Timestamp) :
    (globalStep rl t).2.user_requests = rl.user_requests ∧
    (globalStep rl t).2.ip_requests = rl.ip_requests ∧
    sameConfig rl (globalStep rl t).2 := by
  simp only [globalStep]
  split <;> exact ⟨rfl, rfl, rfl, rfl, rfl, rfl, rfl, rfl⟩

theorem admitB_deny {limit : ℕ} {w : ℚ} {d : Buckets} {t : Timestamp}
    (h : limit ≤ sumValues (cleanupExpired d w t)) :
    admitB limit w d t = (false, cleanupExpired d w t) := by
  simp [admitB, if_pos h]

theorem admitB_allow {limit : ℕ} {w : ℚ} {d : Buckets} {t : Timestamp}
    (h : ¬ limit ≤ sumValues (cleanupExpired d w t)) :
    admitB limit w d t = (true, incrB (cleanupExpired d w t) t) := by
  simp [admitB, if_neg h]

/-! ## Decomposition of `is_allowed` -/

theorem is_allowed_deny_global (rl : RateLimiter) (t : Timestamp)
    (u : Option ℤ) (i : Option String)
    (h : rl.global_limit ≤ sumValues (cleanupExpired rl.global_requests rl.global_window t)) :
    is_allowed rl t u i =
      (false, { rl with
                global_requests := cleanupExpired rl.global_requests rl.global_window t }) := by
  have hG : globalStep rl t =
      (false, { rl with
                global_requests := cleanupExpired rl.global_requests rl.global_window t }) := by
    rw [globalStep_char, admitB_deny h]
  simp [is_allowed, hG]

theorem is_allowed_allow_global (rl : RateLimiter) (t : Timestamp)
    (u : Option ℤ) (i : Option String)
    (h : ¬ rl.global_limit ≤ sumValues (cleanupExpired rl.global_requests rl.global_window t)) :
    is_allowed rl t u i =
      (let rl1 := { rl with
                    global_requests :=
                      incrB (cleanupExpired rl.global_requests rl.global_window t) t }
       let rU := userStep rl1 t u
       if rU.1 then ipStep rU.2 t i else (false, rU.2)) := by
  have hG : globalStep rl t =
      (true, { rl with
               global_requests :=
                 incrB (cleanupExpired rl.global_requests rl.global_window t) t }) := by
    rw [globalStep_char, admitB_allow h]
  simp [is_allowed, hG]

theorem userIpTail_global (rl1 : RateLimiter) (t : Timestamp)
    (u : Option ℤ) (i : Option String) :
    ((if (userStep rl1 t u).1 then ipStep (userStep rl1 t u).2 t i
      else (false, (userStep rl1 t u).2)) : Bool × RateLimiter).2.global_requests
      = rl1.global_requests := by
  by_cases hu : (userStep rl1 t u).1
  · simp only [hu, if_true]
    rw [(ipStep_frame _ t i).1, (userStep_frame _ t u).1]
  · simp only [hu, if_false]
    exact (userStep_frame _ t u).1

/-- The committed global map after any `is_allowed` call is exactly the
outcome of the global admission kernel: the swept map, incremented iff the
global scope had room.  The user and IP blocks never touch it. -/
theorem is_allowed_global_requests (rl : RateLimiter) (t : Timestamp)
    (u : Option ℤ) (i : Option String) :
    (is_allowed rl t u i).2.global_requests =
      (admitB rl.global_limit rl.global_window rl.global_requests t).2 := by
  by_cases h : rl.global_limit ≤ sumValues (cleanupExpired rl.global_requests rl.global_window t)
  · rw [is_allowed_deny_global rl t u i h, admitB_deny h]
  · rw [is_allowed_allow_global rl t u i h, admitB_allow h]
    exact userIpTail_global _ t u i

theorem userBucketsOf_init_any (rl : RateLimiter) (uid x : ℤ) :
    (alistFind x (if (alistFind uid rl.user_requests).isSome then rl.user_requests
                  else alistSet uid [] rl.user_requests)).getD []
      = userBucketsOf rl x := by
  by_cases hx : x = uid
  · subst hx
    exact userBucketsOf_init_self rl x
  · cases hf : alistFind uid rl.user_requests with
    | some m => simp [hf, userBucketsOf]
    | none => simp [hf, alistFind_set_ne _ _ hx, userBucketsOf]

theorem ipBucketsOf_init_any (rl : RateLimiter) (ip x : String) :
    (alistFind x (if (alistFind ip rl.ip_requests).isSome then rl.ip_requests
                  else alistSet ip [] rl.ip_requests)).getD []
      = ipBucketsOf rl x := by
  by_cases hx : x = ip
  · subst hx
    exact ipBucketsOf_init_self rl x
  · cases hf : alistFind ip rl.ip_requests with
    | some m => simp [hf, ipBucketsOf]
    | none => simp [hf, alistFind_set_ne _ _ hx, ipBucketsOf]

/-- User block, denial case: `False` is returned and the bucket contents
stored for every user — the denied one included — are exactly as before:
neither the increment nor the sweep of expired entries is committed. -/
theorem userStep_deny_char (rl : RateLimiter) (t : Timestamp) (uid : ℤ)
    (h : rl.user_limit ≤ sumValues (cleanupExpired (userBucketsOf rl uid) rl.user_window t)) :
    (userStep rl t (some uid)).1 = false ∧
    ∀ x, userBucketsOf (userStep rl t (some uid)).2 x = userBucketsOf rl x := by
  rw [userStep_some_char]
  simp only [admitB_deny h]
  exact ⟨trivial, fun x => userBucketsOf_init_any rl uid x⟩

/-- User block, admission case: `True` is returned, the denied user's map is
replaced by its swept-and-incremented version, every other user's map is
untouched. -/
theorem userStep_allow_char (rl : RateLimiter) (t : Timestamp) (uid : ℤ)
    (h : ¬ rl.user_limit ≤ sumValues (cleanupExpired (userBucketsOf rl uid) rl.user_window t)) :
    (userStep rl t (some uid)).1 = true ∧
    userBucketsOf (userStep rl t (some uid)).2 uid
      = incrB (cleanupExpired (userBucketsOf rl uid) rl.user_window t) t ∧
    ∀ x, x ≠ uid → userBucketsOf (userStep rl t (some uid)).2 x = userBucketsOf rl x := by
  rw [userStep_some_char]
  simp only [admitB_allow h]
  refine ⟨trivial, ?_, ?_⟩
  · simp [userBucketsOf, alistFind_set_self]
  · intro x hx
    simp only [userBucketsOf]
    rw [if_pos trivial, alistFind_set_ne _ _ hx]
    exact userBucketsOf_init_any rl uid x

theorem ipStep_deny_char (rl : RateLimiter) (t : Timestamp) (ip : String)
    (h : rl.ip_limit ≤ sumValues (cleanupExpired (ipBucketsOf rl ip) rl.ip_window t)) :
    (ipStep rl t (some ip)).1 = false ∧
    ∀ x, ipBucketsOf (ipStep rl t (some ip)).2 x = ipBucketsOf rl x := by
  rw [ipStep_some_char]
  simp only [admitB_deny h]
  exact ⟨trivial, fun x => ipBucketsOf_init_any rl ip x⟩

theorem ipStep_allow_char (rl : RateLimiter) (t : Timestamp) (ip : String)
    (h : ¬ rl.ip_limit ≤ sumValues (cleanupExpired (ipBucketsOf rl ip) rl.ip_window t)) :
    (ipStep rl t (some ip)).1 = true ∧
    ipBucketsOf (ipStep rl t (some ip)).2 ip
      = incrB (cleanupExpired (ipBucketsOf rl ip) rl.ip_window t) t ∧
    ∀ x, x ≠ ip → ipBucketsOf (ipStep rl t (some ip)).2 x = ipBucketsOf rl x := by
  rw [ipStep_some_char]
  simp only [admitB_allow h]
  refine ⟨trivial, ?_, ?_⟩
  · simp [ipBucketsOf, alistFind_set_self]
  · intro x hx
    simp only [ipBucketsOf]
    rw [if_pos trivial, alistFind_set_ne _ _ hx]
    exact ipBucketsOf_init_any rl ip x

/-- The throttle wrapper's bucket evolution and admission outcome coincide
with the generic admission kernel (the wrapped callable plays no role). -/
theorem throttleWrapper_admitB {α : Type} (limit : ℕ) (w : ℚ) (name : String)
    (f : Unit → α) (st : Buckets) (t : Timestamp) :
    (throttleWrapper limit w name f st t).requests = (admitB limit w st t).2 ∧
    (throttleWrapper limit w name f st t).raised.isNone = (admitB limit w st t).1 := by
  by_cases h : limit ≤ sumValues (cleanupExpired st w t) <;>
    simp [throttleWrapper, admitB, h]

theorem throttleRun_eq_admitRun {α : Type} (limit : ℕ) (w : ℚ) (name : String)
    (f : Unit → α) :
    ∀ (ts : List Timestamp) (st : Buckets),
      throttleRun limit w name f st ts = admitRun limit w st ts := by
  intro ts
  induction ts with
  | nil => intro st; rfl
  | cons t ts ih =>
    intro st
    obtain ⟨h1, h2⟩ := throttleWrapper_admitB limit w name f st t
    simp only [throttleRun, admitRun, h1, h2, ih]

theorem is_allowed_none_none (rl : RateLimiter) (t : Timestamp) :
    is_allowed rl t none none = globalStep rl t := by
  cases hG : globalStep rl t with
  | mk b s => cases b <;> simp [is_allowed, hG, userStep, ipStep]

/-- With no IP supplied, an `is_allowed` call that passes the global check is
exactly the user block run on the global-incremented state. -/
theorem is_allowed_some_none (rl : RateLimiter) (t : Timestamp) (uid : ℤ)
    (hg : ¬ rl.global_limit ≤ sumValues (cleanupExpired rl.global_requests rl.global_window t)) :
    is_allowed rl t (some uid) none =
      userStep { rl with
                 global_requests :=
                   incrB (cleanupExpired rl.global_requests rl.global_window t) t }
        t (some uid) := by
  rw [is_allowed_allow_global rl t (some uid) none hg]
  cases hU : userStep { rl with
      global_requests :=
        incrB (cleanupExpired rl.global_requests rl.global_window t) t } t (some uid) with
  | mk b s => cases b <;> simp [hU, ipStep]

/-- With no user supplied, an `is_allowed` call that passes the global check
is exactly the IP block run on the global-incremented state. -/
theorem is_allowed_none_some (rl : RateLimiter) (t : Timestamp) (ip : String)
    (hg : ¬ rl.global_limit ≤ sumValues (cleanupExpired rl.global_requests rl.global_window t)) :
    is_allowed rl t none (some ip) =
      ipStep { rl with
               global_requests :=
                 incrB (cleanupExpired rl.global_requests rl.global_window t) t }
        t (some ip) := by
  rw [is_allowed_allow_global rl t none (some ip) hg]
  simp [userStep]

/-! ## The generic admission-run lemma: `N` in-window attempts from a state
with room for all of them are all admitted, each adding exactly one unit -/

theorem admitRun_all_allowed (limit : ℕ) (w : ℚ) :
    ∀ (ts : List Timestamp) (d : Buckets),
      (∀ a ∈ ts, ∀ p ∈ d, a - p.1 ≤ w) →
      (∀ a ∈ ts, ∀ b ∈ ts, a - b ≤ w) →
      sumValues d + ts.length ≤ limit →
      (admitRun limit w d ts).1 = List.replicate ts.length true ∧
      sumValues (admitRun limit w d ts).2 = sumValues d + ts.length ∧
      (∀ p ∈ (admitRun limit w d ts).2, p ∈ d ∨ p.1 ∈ ts) := by
  intro ts
  induction ts with
  | nil => exact fun d _ _ _ => ⟨rfl, rfl, fun p hp => Or.inl hp⟩
  | cons t ts ih =>
    intro d hin hpair hsum
    have hclean : cleanupExpired d w t = d :=
      cleanup_eq_self fun p hp => hin t (List.mem_cons_self _ _) p hp
    have hroom : ¬ limit ≤ sumValues (cleanupExpired d w t) := by
      rw [hclean]
      simp only [List.length_cons] at hsum
      omega
    have hstep : admitB limit w d t = (true, incrB (cleanupExpired d w t) t) :=
      admitB_allow hroom
    rw [hclean] at hstep
    have hin' : ∀ a ∈ ts, ∀ p ∈ incrB d t, a - p.1 ≤ w := by
      intro a ha p hp
      rcases mem_incr hp with h1 | h1
      · rw [h1]
        exact hpair a (List.mem_cons_of_mem _ ha) t (List.mem_cons_self _ _)
      · exact hin a (List.mem_cons_of_mem _ ha) p h1
    have hpair' : ∀ a ∈ ts, ∀ b ∈ ts, a - b ≤ w := fun a ha b hb =>
      hpair a (List.mem_cons_of_mem _ ha) b (List.mem_cons_of_mem _ hb)
    have hsum' : sumValues (incrB d t) + ts.length ≤ limit := by
      rw [sumValues_incr]
      simp only [List.length_cons] at hsum
      omega
    obtain ⟨h1, h2, h3⟩ := ih (incrB d t) hin' hpair' hsum'
    refine ⟨?_, ?_, ?_⟩
    · simp only [admitRun, hstep, h1, List.length_cons, List.replicate_succ]
    · simp only [admitRun, hstep, h2, sumValues_incr, List.length_cons]
      omega
    · intro p hp
      simp only [admitRun, hstep] at hp
      rcases h3 p hp with h4 | h4
      · rcases mem_incr h4 with h5 | h5
        · exact Or.inr (h5 ▸ List.mem_cons_self _ _)
        · exact Or.inl h5
      · exact Or.inr (List.mem_cons_of_mem _ h4)

/-! ## Per-scope run lemmas -/

/-- A run of `is_allowed` calls with neither key supplied is exactly a run of
the global admission kernel on the global map. -/
theorem runSame_none_none (ts : List Timestamp) :
    ∀ rl : RateLimiter,
      (runSame rl none none ts).1
        = (admitRun rl.global_limit rl.global_window rl.global_requests ts).1 ∧
      (runSame rl none none ts).2.global_requests
        = (admitRun rl.global_limit rl.global_window rl.global_requests ts).2 ∧
      sameConfig rl (runSame rl none none ts).2 := by
  induction ts with
  | nil => exact fun rl => ⟨rfl, rfl, rfl, rfl, rfl, rfl, rfl, rfl⟩
  | cons t ts ih =>
    intro rl
    set rl1 : RateLimiter := { rl with
      global_requests := (admitB rl.global_limit rl.global_window rl.global_requests t).2 }
    obtain ⟨h1, h2, h3⟩ := ih rl1
    have hstep : is_allowed rl t none none =
        ((admitB rl.global_limit rl.global_window rl.global_requests t).1, rl1) := by
      rw [is_allowed_none_none, globalStep_char]
    refine ⟨?_, ?_, ?_⟩
    · simp only [runSame, admitRun, hstep]
      rw [h1]
    · simp only [runSame, admitRun, hstep]
      exact h2
    · simp only [runSame, hstep]
      exact h3

/-- A run of `is_allowed` calls for one fixed user (no IP), whose times all
lie inside one user window and for which both the global and the user scope
have room throughout, admits every call; the user's bucket map accumulates
exactly one unit per call and the global map at most one unit per call. -/
theorem runSame_user_all_allowed (uid : ℤ) :
    ∀ (ts : List Timestamp), ∀ rl : RateLimiter,
      sumValues rl.global_requests + ts.length ≤ rl.global_limit →
      (∀ a ∈ ts, ∀ p ∈ userBucketsOf rl uid, a - p.1 ≤ rl.user_window) →
      (∀ a ∈ ts, ∀ b ∈ ts, a - b ≤ rl.user_window) →
      sumValues (userBucketsOf rl uid) + ts.length ≤ rl.user_limit →
      (runSame rl (some uid) none ts).1 = List.replicate ts.length true ∧
      sumValues (userBucketsOf (runSame rl (some uid) none ts).2 uid)
        = sumValues (userBucketsOf rl uid) + ts.length ∧
      (∀ p ∈ userBucketsOf (runSame rl (some uid) none ts).2 uid,
        p ∈ userBucketsOf rl uid ∨ p.1 ∈ ts) ∧
      sumValues (runSame rl (some uid) none ts).2.global_requests
        ≤ sumValues rl.global_requests + ts.length ∧
      sameConfig rl (runSame rl (some uid) none ts).2 := by
  intro ts
  induction ts with
  | nil =>
    exact fun rl _ _ _ _ =>
      ⟨rfl, rfl, fun p hp => Or.inl hp, Nat.le_refl _, rfl, rfl, rfl, rfl, rfl, rfl⟩
  | cons t ts ih =>
    intro rl hG hin hpair hU
    simp only [List.length_cons] at hG hU
    have hg : ¬ rl.global_limit ≤
        sumValues (cleanupExpired rl.global_requests rl.global_window t) := by
      have := sumValues_cleanup_le rl.global_requests rl.global_window t
      omega
    set rl1 : RateLimiter := { rl with
      global_requests := incrB (cleanupExpired rl.global_requests rl.global_window t) t }
      with hrl1
    have hstep0 : is_allowed rl t (some uid) none = userStep rl1 t (some uid) :=
      is_allowed_some_none rl t uid hg
    have hbu1 : userBucketsOf rl1 uid = userBucketsOf rl uid := rfl
    have hcleanU : cleanupExpired (userBucketsOf rl uid) rl.user_window t
        = userBucketsOf rl uid :=
      cleanup_eq_self fun p hp => hin t (List.mem_cons_self _ _) p hp
    have hu : ¬ rl1.user_limit ≤
        sumValues (cleanupExpired (userBucketsOf rl1 uid) rl1.user_window t) := by
      show ¬ rl.user_limit ≤ sumValues (cleanupExpired (userBucketsOf rl uid) rl.user_window t)
      rw [hcleanU]
      omega
    obtain ⟨hb, hself, hother⟩ := userStep_allow_char rl1 t uid hu
    set rl2 : RateLimiter := (userStep rl1 t (some uid)).2 with hrl2
    have hbu2 : userBucketsOf rl2 uid = incrB (userBucketsOf rl uid) t := by
      rw [hself]
      show incrB (cleanupExpired (userBucketsOf rl uid) rl.user_window t) t = _
      rw [hcleanU]
    have hg2 : rl2.global_requests = rl1.global_requests := (userStep_frame rl1 t _).1
    have hsum2 : sumValues rl2.global_requests
        ≤ sumValues rl.global_requests + 1 := by
      rw [hg2]
      show sumValues (incrB (cleanupExpired rl.global_requests rl.global_window t) t) ≤ _
      rw [sumValues_incr]
      have := sumValues_cleanup_le rl.global_requests rl.global_window t
      omega
    obtain ⟨c1, c2, c3, c4, c5, c6⟩ := (userStep_frame rl1 t (some uid)).2.2
    have eG2 : rl2.global_limit = rl.global_limit := c1
    have eL2 : rl2.user_limit = rl.user_limit := c3
    have eW2 : rl2.user_window = rl.user_window := c4
    obtain ⟨hr1, hr2, hr3, hr4, hr5⟩ := ih rl2
      (by rw [eG2]; omega)
      (by
        rw [hbu2, eW2]
        intro a ha p hp
        rcases mem_incr hp with h1 | h1
        · rw [h1]
          exact hpair a (List.mem_cons_of_mem _ ha) t (List.mem_cons_self _ _)
        · exact hin a (List.mem_cons_of_mem _ ha) p h1)
      (by
        rw [eW2]
        exact fun a ha b hb =>
          hpair a (List.mem_cons_of_mem _ ha) b (List.mem_cons_of_mem _ hb))
      (by rw [hbu2, eL2, sumValues_incr]; omega)
    refine ⟨?_, ?_, ?_, ?_, ?_⟩
    · simp only [runSame, hstep0, ← hrl2, hb, hr1, List.length_cons, List.replicate_succ]
    · simp only [runSame, hstep0, ← hrl2, hr2, hbu2, sumValues_incr, List.length_cons]
      omega
    · simp only [runSame, hstep0, ← hrl2]
      intro p hp
      rcases hr3 p hp with h1 | h1
      · rw [hbu2] at h1
        rcases mem_incr h1 with h2 | h2
        · exact Or.inr (h2 ▸ List.mem_cons_self _ _)
        · exact Or.inl h2
      · exact Or.inr (List.mem_cons_of_mem _ h1)
    · simp only [runSame, hstep0, ← hrl2, List.length_cons]
      omega
    · simp only [runSame, hstep0, ← hrl2]
      obtain ⟨d1, d2, d3, d4, d5, d6⟩ := hr5
      exact ⟨d1.trans c1, d2.trans c2, d3.trans c3, d4.trans c4, d5.trans c5, d6.trans c6⟩

/-- IP-scope analogue of `runSame_user_all_allowed`. -/
theorem runSame_ip_all_allowed (ip : String) :
    ∀ (ts : List Timestamp), ∀ rl : RateLimiter,
      sumValues rl.global_requests + ts.length ≤ rl.global_limit →
      (∀ a ∈ ts, ∀ p ∈ ipBucketsOf rl ip, a - p.1 ≤ rl.ip_window) →
      (∀ a ∈ ts, ∀ b ∈ ts, a - b ≤ rl.ip_window) →
      sumValues (ipBucketsOf rl ip) + ts.length ≤ rl.ip_limit →
      (runSame rl none (some ip) ts).1 = List.replicate ts.length true ∧
      sumValues (ipBucketsOf (runSame rl none (some ip) ts).2 ip)
        = sumValues (ipBucketsOf rl ip) + ts.length ∧
      (∀ p ∈ ipBucketsOf (runSame rl none (some ip) ts).2 ip,
        p ∈ ipBucketsOf rl ip ∨ p.1 ∈ ts) ∧
      sumValues (runSame rl none (some ip) ts).2.global_requests
        ≤ sumValues rl.global_requests + ts.length ∧
      sameConfig rl (runSame rl none (some ip) ts).2 := by
  intro ts
  induction ts with
  | nil =>
    exact fun rl _ _ _ _ =>
      ⟨rfl, rfl, fun p hp => Or.inl hp, Nat.le_refl _, rfl, rfl, rfl, rfl, rfl, rfl⟩
  | cons t ts ih =>
    intro rl hG hin hpair hI
    simp only [List.length_cons] at hG hI
    have hg : ¬ rl.global_limit ≤
        sumValues (cleanupExpired rl.global_requests rl.global_window t) := by
      have := sumValues_cleanup_le rl.global_requests rl.global_window t
      omega
    set rl1 : RateLimiter := { rl with
      global_requests := incrB (cleanupExpired rl.global_requests rl.global_window t) t }
      with hrl1
    have hstep0 : is_allowed rl t none (some ip) = ipStep rl1 t (some ip) :=
      is_allowed_none_some rl t ip hg
    have hcleanI : cleanupExpired (ipBucketsOf rl ip) rl.ip_window t
        = ipBucketsOf rl ip :=
      cleanup_eq_self fun p hp => hin t (List.mem_cons_self _ _) p hp
    have hi : ¬ rl1.ip_limit ≤
        sumValues (cleanupExpired (ipBucketsOf rl1 ip) rl1.ip_window t) := by
      show ¬ rl.ip_limit ≤ sumValues (cleanupExpired (ipBucketsOf rl ip) rl.ip_window t)
      rw [hcleanI]
      omega
    obtain ⟨hb, hself, hother⟩ := ipStep_allow_char rl1 t ip hi
    set rl2 : RateLimiter := (ipStep rl1 t (some ip)).2 with hrl2
    have hbu2 : ipBucketsOf rl2 ip = incrB (ipBucketsOf rl ip) t := by
      rw [hself]
      show incrB (cleanupExpired (ipBucketsOf rl ip) rl.ip_window t) t = _
      rw [hcleanI]
    have hg2 : rl2.global_requests = rl1.global_requests := (ipStep_frame rl1 t _).1
    have hsum2 : sumValues rl2.global_requests
        ≤ sumValues rl.global_requests + 1 := by
      rw [hg2]
      show sumValues (incrB (cleanupExpired rl.global_requests rl.global_window t) t) ≤ _
      rw [sumValues_incr]
      have := sumValues_cleanup_le rl.global_requests rl.global_window t
      omega
    obtain ⟨c1, c2, c3, c4, c5, c6⟩ := (ipStep_frame rl1 t (some ip)).2.2
    have eG2 : rl2.global_limit = rl.global_limit := c1
    have eL2 : rl2.ip_limit = rl.ip_limit := c5
    have eW2 : rl2.ip_window = rl.ip_window := c6
    obtain ⟨hr1, hr2, hr3, hr4, hr5⟩ := ih rl2
      (by rw [eG2]; omega)
      (by
        rw [hbu2, eW2]
        intro a ha p hp
        rcases mem_incr hp with h1 | h1
        · rw [h1]
          exact hpair a (List.mem_cons_of_mem _ ha) t (List.mem_cons_self _ _)
        · exact hin a (List.mem_cons_of_mem _ ha) p h1)
      (by
        rw [eW2]
        exact fun a ha b hb =>
          hpair a (List.mem_cons_of_mem _ ha) b (List.mem_cons_of_mem _ hb))
      (by rw [hbu2, eL2, sumValues_incr]; omega)
    refine ⟨?_, ?_, ?_, ?_, ?_⟩
    · simp only [runSame, hstep0, ← hrl2, hb, hr1, List.length_cons, List.replicate_succ]
    · simp only [runSame, hstep0, ← hrl2, hr2, hbu2, sumValues_incr, List.length_cons]
      omega
    · simp only [runSame, hstep0, ← hrl2]
      intro p hp
      rcases hr3 p hp with h1 | h1
      · rw [hbu2] at h1
        rcases mem_incr h1 with h2 | h2
        · exact Or.inr (h2 ▸ List.mem_cons_self _ _)
        · exact Or.inl h2
      · exact Or.inr (List.mem_cons_of_mem _ h1)
    · simp only [runSame, hstep0, ← hrl2, List.length_cons]
      omega
    · simp only [runSame, hstep0, ← hrl2]
      obtain ⟨d1, d2, d3, d4, d5, d6⟩ := hr5
      exact ⟨d1.trans c1, d2.trans c2, d3.trans c3, d4.trans c4, d5.trans c5, d6.trans c6⟩

/-! ## The four limit-saturation scenarios behind claim C1 -/

theorem globalScope_run (N : ℕ) (gw : ℚ) (ul il : ℕ) (uw iw : ℚ)
    (ts : List Timestamp) (tf : Timestamp) (hlen : ts.length = N)
    (hwin : ∀ a ∈ tf :: ts, ∀ b ∈ tf :: ts, a - b ≤ gw) :
    (runSame (RateLimiter.init N gw ul uw il iw) none none ts).1
      = List.replicate N true ∧
    (is_allowed (runSame (RateLimiter.init N gw ul uw il iw) none none ts).2
        tf none none).1 = false ∧
    sumValues (is_allowed (runSame (RateLimiter.init N gw ul uw il iw) none none ts).2
        tf none none).2.global_requests = N := by
  obtain ⟨g1, g2, g3⟩ := runSame_none_none ts (RateLimiter.init N gw ul uw il iw)
  obtain ⟨a1, a2, a3⟩ := admitRun_all_allowed N gw ts []
    (fun a _ p hp => absurd hp (List.not_mem_nil p))
    (fun a ha b hb => hwin a (List.mem_cons_of_mem _ ha) b (List.mem_cons_of_mem _ hb))
    (by simp [sumValues, hlen])
  set rlN := (runSame (RateLimiter.init N gw ul uw il iw) none none ts).2 with hrlN
  have hGmap : rlN.global_requests = (admitRun N gw [] ts).2 := g2
  have e1 : rlN.global_limit = N := g3.1
  have e2 : rlN.global_window = gw := g3.2.1
  have hkeys : ∀ p ∈ rlN.global_requests, tf - p.1 ≤ gw := by
    rw [hGmap]
    intro p hp
    rcases a3 p hp with h | h
    · exact absurd h (List.not_mem_nil p)
    · exact hwin tf (List.mem_cons_self _ _) p.1 (List.mem_cons_of_mem _ h)
  have hclean : cleanupExpired rlN.global_requests rlN.global_window tf
      = rlN.global_requests := by
    rw [e2]
    exact cleanup_eq_self hkeys
  have hsumN : sumValues rlN.global_requests = N := by
    rw [hGmap, a2]
    simp [sumValues, hlen]
  have hdeny : rlN.global_limit ≤
      sumValues (cleanupExpired rlN.global_requests rlN.global_window tf) := by
    rw [hclean, hsumN, e1]
  have hfin := is_allowed_deny_global rlN tf none none hdeny
  refine ⟨?_, ?_, ?_⟩
  · exact g1.trans (by
      show (admitRun N gw [] ts).1 = List.replicate N true
      rw [a1, hlen])
  · rw [hfin]
  · rw [hfin]
    show sumValues (cleanupExpired rlN.global_requests rlN.global_window tf) = N
    rw [hclean, hsumN]

theorem userScope_run (N gl : ℕ) (gw uw : ℚ) (il : ℕ) (iw : ℚ) (uid : ℤ)
    (ts : List Timestamp) (tf : Timestamp) (hlen : ts.length = N)
    (hgl : N < gl)
    (hwin : ∀ a ∈ tf :: ts, ∀ b ∈ tf :: ts, a - b ≤ uw) :
    (runSame (RateLimiter.init gl gw N uw il iw) (some uid) none ts).1
      = List.replicate N true ∧
    (is_allowed (runSame (RateLimiter.init gl gw N uw il iw) (some uid) none ts).2
        tf (some uid) none).1 = false ∧
    sumValues (userBucketsOf
        (is_allowed (runSame (RateLimiter.init gl gw N uw il iw) (some uid) none ts).2
          tf (some uid) none).2 uid) = N := by
  obtain ⟨r1, r2, r3, r4, r5⟩ :=
    runSame_user_all_allowed uid ts (RateLimiter.init gl gw N uw il iw)
      (by show 0 + ts.length ≤ gl; omega)
      (fun a _ p hp => absurd hp (List.not_mem_nil p))
      (fun a ha b hb => hwin a (List.mem_cons_of_mem _ ha) b (List.mem_cons_of_mem _ hb))
      (by show 0 + ts.length ≤ N; omega)
  set rlN := (runSame (RateLimiter.init gl gw N uw il iw) (some uid) none ts).2 with hrlN
  obtain ⟨e1, e2, e3, e4, e5, e6⟩ := r5
  have eb1 : rlN.global_limit = gl := e1
  have eb3 : rlN.user_limit = N := e3
  have eb4 : rlN.user_window = uw := e4
  have hsumU : sumValues (userBucketsOf rlN uid) = N := by
    have : sumValues (userBucketsOf rlN uid) = 0 + ts.length := r2
    omega
  have hsumG : sumValues rlN.global_requests ≤ N := by
    have : sumValues rlN.global_requests ≤ 0 + ts.length := r4
    omega
  have hg : ¬ rlN.global_limit ≤
      sumValues (cleanupExpired rlN.global_requests rlN.global_window tf) := by
    have := sumValues_cleanup_le rlN.global_requests rlN.global_window tf
    rw [eb1]
    omega
  have hstep : is_allowed rlN tf (some uid) none =
      userStep { rlN with
                 global_requests :=
                   incrB (cleanupExpired rlN.global_requests rlN.global_window tf) tf }
        tf (some uid) :=
    is_allowed_some_none rlN tf uid hg
  set rl1 : RateLimiter := { rlN with
    global_requests := incrB (cleanupExpired rlN.global_requests rlN.global_window tf) tf }
    with hrl1
  have hbu1 : userBucketsOf rl1 uid = userBucketsOf rlN uid := rfl
  have hkeysU : ∀ p ∈ userBucketsOf rlN uid, tf - p.1 ≤ uw := by
    intro p hp
    rcases r3 p hp with h | h
    · exact absurd h (List.not_mem_nil p)
    · exact hwin tf (List.mem_cons_self _ _) p.1 (List.mem_cons_of_mem _ h)
  have hcleanU : cleanupExpired (userBucketsOf rlN uid) rlN.user_window tf
      = userBucketsOf rlN uid := by
    rw [eb4]
    exact cleanup_eq_self hkeysU
  have hu : rl1.user_limit ≤
      sumValues (cleanupExpired (userBucketsOf rl1 uid) rl1.user_window tf) := by
    show rlN.user_limit ≤
      sumValues (cleanupExpired (userBucketsOf rlN uid) rlN.user_window tf)
    rw [hcleanU, hsumU, eb3]
  obtain ⟨hdeny1, hdeny2⟩ := userStep_deny_char rl1 tf uid hu
  refine ⟨?_, ?_, ?_⟩
  · exact r1.trans (by rw [hlen])
  · rw [hstep]
    exact hdeny1
  · rw [hstep, hdeny2 uid]
    exact hsumU

theorem ipScope_run (N gl : ℕ) (gw : ℚ) (ul : ℕ) (uw iw : ℚ) (ip : String)
    (ts : List Timestamp) (tf : Timestamp) (hlen : ts.length = N)
    (hgl : N < gl)
    (hwin : ∀ a ∈ tf :: ts, ∀ b ∈ tf :: ts, a - b ≤ iw) :
    (runSame (RateLimiter.init gl gw ul uw N iw) none (some ip) ts).1
      = List.replicate N true ∧
    (is_allowed (runSame (RateLimiter.init gl gw ul uw N iw) none (some ip) ts).2
        tf none (some ip)).1 = false ∧
    sumValues (ipBucketsOf
        (is_allowed (runSame (RateLimiter.init gl gw ul uw N iw) none (some ip) ts).2
          tf none (some ip)).2 ip) = N := by
  obtain ⟨r1, r2, r3, r4, r5⟩ :=
    runSame_ip_all_allowed ip ts (RateLimiter.init gl gw ul uw N iw)
      (by show 0 + ts.length ≤ gl; omega)
      (fun a _ p hp => absurd hp (List.not_mem_nil p))
      (fun a ha b hb => hwin a (List.mem_cons_of_mem _ ha) b (List.mem_cons_of_mem _ hb))
      (by show 0 + ts.length ≤ N; omega)
  set rlN := (runSame (RateLimiter.init gl gw ul uw N iw) none (some ip) ts).2 with hrlN
  obtain ⟨e1, e2, e3, e4, e5, e6⟩ := r5
  have eb1 : rlN.global_limit = gl := e1
  have eb5 : rlN.ip_limit = N := e5
  have eb6 : rlN.ip_window = iw := e6
  have hsumI : sumValues (ipBucketsOf rlN ip) = N := by
    have : sumValues (ipBucketsOf rlN ip) = 0 + ts.length := r2
    omega
  have hsumG : sumValues rlN.global_requests ≤ N := by
    have : sumValues rlN.global_requests ≤ 0 + ts.length := r4
    omega
  have hg : ¬ rlN.global_limit ≤
      sumValues (cleanupExpired rlN.global_requests rlN.global_window tf) := by
    have := sumValues_cleanup_le rlN.global_requests rlN.global_window tf
    rw [eb1]
    omega
  have hstep : is_allowed rlN tf none (some ip) =
      ipStep { rlN with
               global_requests :=
                 incrB (cleanupExpired rlN.global_requests rlN.global_window tf) tf }
        tf (some ip) :=
    is_allowed_none_some rlN tf ip hg
  set rl1 : RateLimiter := { rlN with
    global_requests := incrB (cleanupExpired rlN.global_requests rlN.global_window tf) tf }
    with hrl1
  have hkeysI : ∀ p ∈ ipBucketsOf rlN ip, tf - p.1 ≤ iw := by
    intro p hp
    rcases r3 p hp with h | h
    · exact absurd h (List.not_mem_nil p)
    · exact hwin tf (List.mem_cons_self _ _) p.1 (List.mem_cons_of_mem _ h)
  have hcleanI : cleanupExpired (ipBucketsOf rlN ip) rlN.ip_window tf
      = ipBucketsOf rlN ip := by
    rw [eb6]
    exact cleanup_eq_self hkeysI
  have hi : rl1.ip_limit ≤
      sumValues (cleanupExpired (ipBucketsOf rl1 ip) rl1.ip_window tf) := by
    show rlN.ip_limit ≤
      sumValues (cleanupExpired (ipBucketsOf rlN ip) rlN.ip_window tf)
    rw [hcleanI, hsumI, eb5]
  obtain ⟨hdeny1, hdeny2⟩ := ipStep_deny_char rl1 tf ip hi
  refine ⟨?_, ?_, ?_⟩
  · exact r1.trans (by rw [hlen])
  · rw [hstep]
    exact hdeny1
  · rw [hstep, hdeny2 ip]
    exact hsumI

theorem throttleScope_run {α : Type} (N : ℕ) (w : ℚ) (name : String) (f : Unit → α)
    (ts : List Timestamp) (tf : Timestamp) (hlen : ts.length = N)
    (hwin : ∀ a ∈ tf :: ts, ∀ b ∈ tf :: ts, a - b ≤ w) :
    (throttleRun N w name f [] ts).1 = List.replicate N true ∧
    (throttleWrapper N w name f (throttleRun N w name f [] ts).2 tf).value = none ∧
    (throttleWrapper N w name f (throttleRun N w name f [] ts).2 tf).raised
      = some ⟨"Rate limit exceeded"⟩ ∧
    sumValues (throttleWrapper N w name f (throttleRun N w name f [] ts).2 tf).requests
      = N := by
  obtain ⟨a1, a2, a3⟩ := admitRun_all_allowed N w ts []
    (fun a _ p hp => absurd hp (List.not_mem_nil p))
    (fun a ha b hb => hwin a (List.mem_cons_of_mem _ ha) b (List.mem_cons_of_mem _ hb))
    (by simp [sumValues, hlen])
  have hrun : throttleRun N w name f [] ts = admitRun N w [] ts :=
    throttleRun_eq_admitRun N w name f ts []
  have hsumN : sumValues (throttleRun N w name f [] ts).2 = N := by
    rw [hrun, a2]
    simp [sumValues, hlen]
  have hkeys : ∀ p ∈ (throttleRun N w name f [] ts).2, tf - p.1 ≤ w := by
    rw [hrun]
    intro p hp
    rcases a3 p hp with h | h
    · exact absurd h (List.not_mem_nil p)
    · exact hwin tf (List.mem_cons_self _ _) p.1 (List.mem_cons_of_mem _ h)
  have hclean : cleanupExpired (throttleRun N w name f [] ts).2 w tf
      = (throttleRun N w name f [] ts).2 :=
    cleanup_eq_self hkeys
  have hden : N ≤ sumValues (cleanupExpired (throttleRun N w name f [] ts).2 w tf) := by
    rw [hclean, hsumN]
  refine ⟨?_, ?_, ?_, ?_⟩
  · rw [hrun]
    exact a1.trans (by rw [hlen])
  · simp [throttleWrapper, if_pos hden]
  · simp [throttleWrapper, if_pos hden]
  · simp only [throttleWrapper, if_pos hden]
    rw [hclean, hsumN]

/-- Under a passing global check, an `is_allowed` call that the user scope
denies returns `False`, leaves every stored user bucket map exactly as it
was (expired entries included), and leaves the IP maps untouched. -/
theorem is_allowed_user_denied (rl : RateLimiter) (t : Timestamp) (uid : ℤ)
    (i : Option String)
    (hg : ¬ rl.global_limit ≤ sumValues (cleanupExpired rl.global_requests rl.global_window t))
    (hu : rl.user_limit ≤ sumValues (cleanupExpired (userBucketsOf rl uid) rl.user_window t)) :
    (is_allowed rl t (some uid) i).1 = false ∧
    (∀ x, userBucketsOf (is_allowed rl t (some uid) i).2 x = userBucketsOf rl x) ∧
    (is_allowed rl t (some uid) i).2.ip_requests = rl.ip_requests := by
  rw [is_allowed_allow_global rl t (some uid) i hg]
  set rl1 : RateLimiter := { rl with
    global_requests := incrB (cleanupExpired rl.global_requests rl.global_window t) t }
    with hrl1
  have hu1 : rl1.user_limit ≤
      sumValues (cleanupExpired (userBucketsOf rl1 uid) rl1.user_window t) := hu
  obtain ⟨hdeny1, hdeny2⟩ := userStep_deny_char rl1 t uid hu1
  simp only [hdeny1, Bool.false_eq_true, if_false]
  exact ⟨trivial, fun x => hdeny2 x, (userStep_frame rl1 t (some uid)).2.1⟩

/-- Under a passing global check and a passing (or absent) user check, an
`is_allowed` call that the IP scope denies returns `False` and leaves every
stored IP bucket map exactly as it was. -/
theorem is_allowed_ip_denied (rl : RateLimiter) (t : Timestamp)
    (u : Option ℤ) (ip : String)
    (hg : ¬ rl.global_limit ≤ sumValues (cleanupExpired rl.global_requests rl.global_window t))
    (hU : ∀ uid, u = some uid →
      ¬ rl.user_limit ≤ sumValues (cleanupExpired (userBucketsOf rl uid) rl.user_window t))
    (hi : rl.ip_limit ≤ sumValues (cleanupExpired (ipBucketsOf rl ip) rl.ip_window t)) :
    (is_allowed rl t u (some ip)).1 = false ∧
    (∀ x, ipBucketsOf (is_allowed rl t u (some ip)).2 x = ipBucketsOf rl x) := by
  rw [is_allowed_allow_global rl t u (some ip) hg]
  set rl1 : RateLimiter := { rl with
    global_requests := incrB (cleanupExpired rl.global_requests rl.global_window t) t }
    with hrl1
  have hUtrue : (userStep rl1 t u).1 = true := by
    cases u with
    | none => rfl
    | some uid =>
      have hu1 : ¬ rl1.user_limit ≤
          sumValues (cleanupExpired (userBucketsOf rl1 uid) rl1.user_window t) :=
        hU uid rfl
      exact (userStep_allow_char rl1 t uid hu1).1
  set rl2 : RateLimiter := (userStep rl1 t u).2 with hrl2
  have hipmap : rl2.ip_requests = rl.ip_requests := (userStep_frame rl1 t u).2.1
  have hbuck : ∀ x, ipBucketsOf rl2 x = ipBucketsOf rl x := by
    intro x
    show (alistFind x rl2.ip_requests).getD [] = (alistFind x rl.ip_requests).getD []
    rw [hipmap]
  obtain ⟨cg1, cg2, cu1, cu2, ci1, ci2⟩ := (userStep_frame rl1 t u).2.2
  have hi2 : rl2.ip_limit ≤
      sumValues (cleanupExpired (ipBucketsOf rl2 ip) rl2.ip_window t) := by
    rw [ci1, ci2, hbuck ip]
    exact hi
  obtain ⟨hdeny1, hdeny2⟩ := ipStep_deny_char rl2 t ip hi2
  simp only [hUtrue, if_true]
  exact ⟨hdeny1, fun x => (hdeny2 x).trans (hbuck x)⟩

/-! ## Claim theorems -/

/-- C1: for every scope — global, per-user, per-IP, and the operation
throttle — configured with limit `N`, starting from empty state, `N`
admission attempts for the same key all made within one window are all
admitted, the `(N+1)`-th attempt within the same window is denied, and the
denied attempt does not increment that scope's bucket count for the key:
the retained total for the key is still `N` afterwards.  For the per-user
and per-IP scopes the global scope, which is checked first, must itself
have room (`N < global_limit`) for the `N` calls to reach the narrower
scope. -/
theorem C1_per_scope_limit_saturation :
    (∀ (N : ℕ) (gw : ℚ) (ul il : ℕ) (uw iw : ℚ)
       (ts : List Timestamp) (tf : Timestamp),
      ts.length = N →
      (∀ a ∈ tf :: ts, ∀ b ∈ tf :: ts, a - b ≤ gw) →
      (runSame (RateLimiter.init N gw ul uw il iw) none none ts).1
        = List.replicate N true ∧
      (is_allowed (runSame (RateLimiter.init N gw ul uw il iw) none none ts).2
          tf none none).1 = false ∧
      sumValues (is_allowed (runSame (RateLimiter.init N gw ul uw il iw) none none ts).2
          tf none none).2.global_requests = N) ∧
    (∀ (N gl : ℕ) (gw uw : ℚ) (il : ℕ) (iw : ℚ) (uid : ℤ)
       (ts : List Timestamp) (tf : Timestamp),
      ts.length = N → N < gl →
      (∀ a ∈ tf :: ts, ∀ b ∈ tf :: ts, a - b ≤ uw) →
      (runSame (RateLimiter.init gl gw N uw il iw) (some uid) none ts).1
        = List.replicate N true ∧
      (is_allowed (runSame (RateLimiter.init gl gw N uw il iw) (some uid) none ts).2
          tf (some uid) none).1 = false ∧
      sumValues (userBucketsOf
          (is_allowed (runSame (RateLimiter.init gl gw N uw il iw) (some uid) none ts).2
            tf (some uid) none).2 uid) = N) ∧
    (∀ (N gl : ℕ) (gw : ℚ) (ul : ℕ) (uw iw : ℚ) (ip : String)
       (ts : List Timestamp) (tf : Timestamp),
      ts.length = N → N < gl →
      (∀ a ∈ tf :: ts, ∀ b ∈ tf :: ts, a - b ≤ iw) →
      (runSame (RateLimiter.init gl gw ul uw N iw) none (some ip) ts).1
        = List.replicate N true ∧
      (is_allowed (runSame (RateLimiter.init gl gw ul uw N iw) none (some ip) ts).2
          tf none (some ip)).1 = false ∧
      sumValues (ipBucketsOf
          (is_allowed (runSame (RateLimiter.init gl gw ul uw N iw) none (some ip) ts).2
            tf none (some ip)).2 ip) = N) ∧
    (∀ (α : Type) (N : ℕ) (w : ℚ) (name : String) (f : Unit → α)
       (ts : List Timestamp) (tf : Timestamp),
      ts.length = N →
      (∀ a ∈ tf :: ts, ∀ b ∈ tf :: ts, a - b ≤ w) →
      (throttleRun N w name f [] ts).1 = List.replicate N true ∧
      (throttleWrapper N w name f (throttleRun N w name f [] ts).2 tf).value = none ∧
      (throttleWrapper N w name f (throttleRun N w name f [] ts).2 tf).raised
        = some ⟨"Rate limit exceeded"⟩ ∧
      sumValues (throttleWrapper N w name f (throttleRun N w name f [] ts).2 tf).requests
        = N) :=
  ⟨fun N gw ul il uw iw ts tf hlen hwin =>
      globalScope_run N gw ul il uw iw ts tf hlen hwin,
   fun N gl gw uw il iw uid ts tf hlen hgl hwin =>
      userScope_run N gl gw uw il iw uid ts tf hlen hgl hwin,
   fun N gl gw ul uw iw ip ts tf hlen hgl hwin =>
      ipScope_run N gl gw ul uw iw ip ts tf hlen hgl hwin,
   fun _α N w name f ts tf hlen hwin =>
      throttleScope_run N w name f ts tf hlen hwin⟩

/-- Witness for C1: the four scope scenarios at concrete inputs (global
limit 2 over calls at times 0, 1, 2; user limit 1; IP limit 1; throttle
limit 1), with every hypothesis discharged by evaluation. -/
theorem C1_witness :
    ((runSame (RateLimiter.init 2 60 10 60 50 60) none none [0, 1]).1
        = List.replicate 2 true ∧
      (is_allowed (runSame (RateLimiter.init 2 60 10 60 50 60) none none [0, 1]).2
          2 none none).1 = false ∧
      sumValues (is_allowed (runSame (RateLimiter.init 2 60 10 60 50 60) none none [0, 1]).2
          2 none none).2.global_requests = 2) ∧
    ((runSame (RateLimiter.init 100 60 1 60 50 60) (some 7) none [0]).1
        = List.replicate 1 true ∧
      (is_allowed (runSame (RateLimiter.init 100 60 1 60 50 60) (some 7) none [0]).2
          1 (some 7) none).1 = false ∧
      sumValues (userBucketsOf
          (is_allowed (runSame (RateLimiter.init 100 60 1 60 50 60) (some 7) none [0]).2
            1 (some 7) none).2 7) = 1) ∧
    ((runSame (RateLimiter.init 100 60 10 60 1 60) none (some "a") [0]).1
        = List.replicate 1 true ∧
      (is_allowed (runSame (RateLimiter.init 100 60 10 60 1 60) none (some "a") [0]).2
          1 none (some "a")).1 = false ∧
      sumValues (ipBucketsOf
          (is_allowed (runSame (RateLimiter.init 100 60 10 60 1 60) none (some "a") [0]).2
            1 none (some "a")).2 "a") = 1) ∧
    ((throttleRun 1 10 "op" (fun _ => (0 : ℕ)) [] [0]).1 = List.replicate 1 true ∧
      (throttleWrapper 1 10 "op" (fun _ => (0 : ℕ))
          (throttleRun 1 10 "op" (fun _ => (0 : ℕ)) [] [0]).2 1).value = none ∧
      (throttleWrapper 1 10 "op" (fun _ => (0 : ℕ))
          (throttleRun 1 10 "op" (fun _ => (0 : ℕ)) [] [0]).2 1).raised
        = some ⟨"Rate limit exceeded"⟩ ∧
      sumValues ((throttleWrapper 1 10 "op" (fun _ => (0 : ℕ))
          (throttleRun 1 10 "op" (fun _ => (0 : ℕ)) [] [0]).2 1).requests) = 1) :=
  ⟨C1_per_scope_limit_saturation.1 2 60 10 50 60 60 [0, 1] 2 rfl
      (by intro a ha b hb; fin_cases ha <;> fin_cases hb <;> norm_num),
   C1_per_scope_limit_saturation.2.1 1 100 60 60 50 60 7 [0] 1 rfl (by norm_num)
      (by intro a ha b hb; fin_cases ha <;> fin_cases hb <;> norm_num),
   C1_per_scope_limit_saturation.2.2.1 1 100 60 10 60 60 "a" [0] 1 rfl (by norm_num)
      (by intro a ha b hb; fin_cases ha <;> fin_cases hb <;> norm_num),
   C1_per_scope_limit_saturation.2.2.2 ℕ 1 10 "op" (fun _ => 0) [0] 1 rfl
      (by intro a ha b hb; fin_cases ha <;> fin_cases hb <;> norm_num)⟩

/-- C2: the global scope is checked, and on room incremented, first, so a
call that is globally admitted but then denied by a narrower scope still
consumes one unit of global quota: whenever the global scope has room, the
committed global sum after the call is its swept sum plus one, whatever the
overall outcome.  Concretely, with global limit 100/60 s and user limit
1/60 s, two calls from the same user inside the window return
`[True, False]` and leave the global counter sum at 2. -/
theorem C2_global_quota_consumed_on_denial :
    (∀ (rl : RateLimiter) (t : Timestamp) (u : Option ℤ) (i : Option String),
      ¬ rl.global_limit ≤ sumValues (cleanupExpired rl.global_requests rl.global_window t) →
      sumValues (is_allowed rl t u i).2.global_requests
        = sumValues (cleanupExpired rl.global_requests rl.global_window t) + 1) ∧
    ((runSame (RateLimiter.init 100 60 1 60 50 60) (some 7) none [0, 1]).1
        = [true, false] ∧
      sumValues (runSame (RateLimiter.init 100 60 1 60 50 60) (some 7) none
        [0, 1]).2.global_requests = 2) := by
  refine ⟨?_, ?_, ?_⟩
  · intro rl t u i hg
    rw [is_allowed_global_requests, admitB_allow hg]
    exact sumValues_incr _ _
  · norm_num [runSame, is_allowed, globalStep, userStep, ipStep, cleanupExpired,
      sumValues, incrB, alistFind, alistSet, RateLimiter.init]
  · norm_num [runSame, is_allowed, globalStep, userStep, ipStep, cleanupExpired,
      sumValues, incrB, alistFind, alistSet, RateLimiter.init]

/-- Witness for C2: the quantified part applied to a fresh limiter at time
0 for user 7, whose global scope (limit 100) has room. -/
theorem C2_witness :
    sumValues (is_allowed (RateLimiter.init 100 60 1 60 50 60) 0 (some 7)
        none).2.global_requests
      = sumValues (cleanupExpired (RateLimiter.init 100 60 1 60 50 60).global_requests
          (RateLimiter.init 100 60 1 60 50 60).global_window 0) + 1 :=
  C2_global_quota_consumed_on_denial.1 (RateLimiter.init 100 60 1 60 50 60) 0 (some 7) none
    (by norm_num [RateLimiter.init, cleanupExpired, sumValues])

/-- C10: when `is_allowed` is denied at the per-user (resp. per-IP) scope,
the bucket map stored for every user (resp. IP) is left exactly as it was —
no increment is committed, and the sweep of expired entries, performed on a
local copy, is not written back, so expired entries persist after a denial.
By contrast, the global map's sweep is committed on every call: on a global
denial the stored global map becomes exactly the swept map, and on a global
admission the swept-and-incremented map. -/
theorem C10_denial_frame_effects :
    (∀ (rl : RateLimiter) (t : Timestamp) (uid : ℤ) (i : Option String),
      ¬ rl.global_limit ≤ sumValues (cleanupExpired rl.global_requests rl.global_window t) →
      rl.user_limit ≤ sumValues (cleanupExpired (userBucketsOf rl uid) rl.user_window t) →
      (is_allowed rl t (some uid) i).1 = false ∧
      ∀ x, userBucketsOf (is_allowed rl t (some uid) i).2 x = userBucketsOf rl x) ∧
    (∀ (rl : RateLimiter) (t : Timestamp) (u : Option ℤ) (ip : String),
      ¬ rl.global_limit ≤ sumValues (cleanupExpired rl.global_requests rl.global_window t) →
      (∀ uid, u = some uid →
        ¬ rl.user_limit ≤ sumValues (cleanupExpired (userBucketsOf rl uid) rl.user_window t)) →
      rl.ip_limit ≤ sumValues (cleanupExpired (ipBucketsOf rl ip) rl.ip_window t) →
      (is_allowed rl t u (some ip)).1 = false ∧
      ∀ x, ipBucketsOf (is_allowed rl t u (some ip)).2 x = ipBucketsOf rl x) ∧
    (∀ (rl : RateLimiter) (t : Timestamp) (u : Option ℤ) (i : Option String),
      rl.global_limit ≤ sumValues (cleanupExpired rl.global_requests rl.global_window t) →
      (is_allowed rl t u i).2.global_requests
        = cleanupExpired rl.global_requests rl.global_window t) ∧
    (∀ (rl : RateLimiter) (t : Timestamp) (u : Option ℤ) (i : Option String),
      ¬ rl.global_limit ≤ sumValues (cleanupExpired rl.global_requests rl.global_window t) →
      (is_allowed rl t u i).2.global_requests
        = incrB (cleanupExpired rl.global_requests rl.global_window t) t) := by
  refine ⟨?_, ?_, ?_, ?_⟩
  · intro rl t uid i hg hu
    obtain ⟨h1, h2, _⟩ := is_allowed_user_denied rl t uid i hg hu
    exact ⟨h1, h2⟩
  · intro rl t u ip hg hU hi
    exact is_allowed_ip_denied rl t u ip hg hU hi
  · intro rl t u i hg
    rw [is_allowed_global_requests, admitB_deny hg]
  · intro rl t u i hg
    rw [is_allowed_global_requests, admitB_allow hg]

/-- Witness for C10: all four parts at concrete states.  User 7 holds one
already-expired entry (timestamp 0, window 60, now 100) plus a fresh one;
with user limit 1 the call at time 100 is denied at the user scope and the
expired entry survives.  The analogous IP state behaves the same, and the
two global parts are exercised at limits 0 and 100. -/
theorem C10_witness :
    ((is_allowed { RateLimiter.init 100 60 1 60 50 60 with
        user_requests := [(7, [(90, 1)])] } 100 (some 7) none).1 = false ∧
      userBucketsOf (is_allowed { RateLimiter.init 100 60 1 60 50 60 with
        user_requests := [(7, [(90, 1)])] } 100 (some 7) none).2 7 = [(90, 1)]) ∧
    ((is_allowed { RateLimiter.init 100 60 10 60 1 60 with
        ip_requests := [("a", [(90, 1)])] } 100 none (some "a")).1 = false ∧
      ipBucketsOf (is_allowed { RateLimiter.init 100 60 10 60 1 60 with
        ip_requests := [("a", [(90, 1)])] } 100 none (some "a")).2 "a" = [(90, 1)]) ∧
    (is_allowed { RateLimiter.init 1 60 10 60 50 60 with
        global_requests := [(0, 1), (90, 1)] } 100 none none).2.global_requests
      = [(90, 1)] ∧
    (is_allowed (RateLimiter.init 100 60 10 60 50 60) 0 none
        none).2.global_requests = [(0, 1)] := by
  refine ⟨⟨?_, ?_⟩, ⟨?_, ?_⟩, ?_, ?_⟩
  · exact (C10_denial_frame_effects.1 _ 100 7 none
      (by norm_num [RateLimiter.init, cleanupExpired, sumValues])
      (by norm_num [RateLimiter.init, cleanupExpired, sumValues, userBucketsOf, alistFind])).1
  · rw [(C10_denial_frame_effects.1 _ 100 7 none
      (by norm_num [RateLimiter.init, cleanupExpired, sumValues])
      (by norm_num [RateLimiter.init, cleanupExpired, sumValues, userBucketsOf,
        alistFind])).2 7]
    norm_num [RateLimiter.init, userBucketsOf, alistFind]
  · exact (C10_denial_frame_effects.2.1 _ 100 none "a"
      (by norm_num [RateLimiter.init, cleanupExpired, sumValues])
      (by intro uid h; exact absurd h (by simp))
      (by norm_num [RateLimiter.init, cleanupExpired, sumValues, ipBucketsOf, alistFind])).1
  · rw [(C10_denial_frame_effects.2.1 _ 100 none "a"
      (by norm_num [RateLimiter.init, cleanupExpired, sumValues])
      (by intro uid h; exact absurd h (by simp))
      (by norm_num [RateLimiter.init, cleanupExpired, sumValues, ipBucketsOf,
        alistFind])).2 "a"]
    norm_num [RateLimiter.init, ipBucketsOf, alistFind]
  · rw [C10_denial_frame_effects.2.2.1 _ 100 none none
      (by norm_num [RateLimiter.init, cleanupExpired, sumValues])]
    norm_num [RateLimiter.init, cleanupExpired]
  · rw [C10_denial_frame_effects.2.2.2 _ 0 none none
      (by norm_num [RateLimiter.init, cleanupExpired, sumValues])]
    norm_num [RateLimiter.init, cleanupExpired, incrB, alistFind, alistSet]

/-! ## The sliding-window invariant (claim C3) -/

theorem sameConfig_trans {a b c : RateLimiter}
    (h1 : sameConfig a b) (h2 : sameConfig b c) : sameConfig a c :=
  ⟨h2.1.trans h1.1, h2.2.1.trans h1.2.1, h2.2.2.1.trans h1.2.2.1,
   h2.2.2.2.1.trans h1.2.2.2.1, h2.2.2.2.2.1.trans h1.2.2.2.2.1,
   h2.2.2.2.2.2.trans h1.2.2.2.2.2⟩

theorem is_allowed_config (rl : RateLimiter) (t : Timestamp)
    (u : Option ℤ) (i : Option String) :
    sameConfig rl (is_allowed rl t u i).2 := by
  by_cases hg : rl.global_limit ≤ sumValues (cleanupExpired rl.global_requests rl.global_window t)
  · rw [is_allowed_deny_global rl t u i hg]
    exact ⟨rfl, rfl, rfl, rfl, rfl, rfl⟩
  · rw [is_allowed_allow_global rl t u i hg]
    set rl1 : RateLimiter := { rl with
      global_requests := incrB (cleanupExpired rl.global_requests rl.global_window t) t }
      with hrl1
    have hc1 : sameConfig rl rl1 := ⟨rfl, rfl, rfl, rfl, rfl, rfl⟩
    have hcU : sameConfig rl1 (userStep rl1 t u).2 := (userStep_frame rl1 t u).2.2
    cases hu : (userStep rl1 t u).1 with
    | true =>
      simp only [hu, if_true]
      exact sameConfig_trans (sameConfig_trans hc1 hcU)
        ((ipStep_frame (userStep rl1 t u).2 t i).2.2)
    | false =>
      simp only [hu, Bool.false_eq_true, if_false]
      exact sameConfig_trans hc1 hcU

/-- After any `is_allowed` call, each user's stored bucket map is either
untouched, or it belongs to the supplied user id, its scope check passed,
and it became the swept-and-incremented map. -/
theorem is_allowed_user_buckets (rl : RateLimiter) (t : Timestamp)
    (u : Option ℤ) (i : Option String) (x : ℤ) :
    userBucketsOf (is_allowed rl t u i).2 x = userBucketsOf rl x ∨
    (u = some x ∧
     ¬ rl.user_limit ≤ sumValues (cleanupExpired (userBucketsOf rl x) rl.user_window t) ∧
     userBucketsOf (is_allowed rl t u i).2 x
       = incrB (cleanupExpired (userBucketsOf rl x) rl.user_window t) t) := by
  by_cases hg : rl.global_limit ≤ sumValues (cleanupExpired rl.global_requests rl.global_window t)
  · rw [is_allowed_deny_global rl t u i hg]
    exact Or.inl rfl
  · rw [is_allowed_allow_global rl t u i hg]
    set rl1 : RateLimiter := { rl with
      global_requests := incrB (cleanupExpired rl.global_requests rl.global_window t) t }
      with hrl1
    cases u with
    | none =>
      left
      show userBucketsOf (if (userStep rl1 t none).1 then ipStep (userStep rl1 t none).2 t i
        else (false, (userStep rl1 t none).2)).2 x = userBucketsOf rl x
      show userBucketsOf (ipStep rl1 t i).2 x = userBucketsOf rl x
      show (alistFind x (ipStep rl1 t i).2.user_requests).getD [] = _
      rw [(ipStep_frame rl1 t i).2.1]
      rfl
    | some uid =>
      by_cases hu : rl1.user_limit ≤
          sumValues (cleanupExpired (userBucketsOf rl1 uid) rl1.user_window t)
      · obtain ⟨hd1, hd2⟩ := userStep_deny_char rl1 t uid hu
        simp only [hd1, Bool.false_eq_true, if_false]
        exact Or.inl (hd2 x)
      · obtain ⟨ha1, ha2, ha3⟩ := userStep_allow_char rl1 t uid hu
        simp only [ha1, if_true]
        have hframe := (ipStep_frame (userStep rl1 t (some uid)).2 t i).2.1
        by_cases hx : x = uid
        · subst hx
          right
          refine ⟨rfl, hu, ?_⟩
          show (alistFind x (ipStep (userStep rl1 t (some x)).2 t i).2.user_requests).getD []
            = _
          rw [hframe]
          exact ha2
        · left
          show (alistFind x (ipStep (userStep rl1 t (some uid)).2 t i).2.user_requests).getD []
            = _
          rw [hframe]
          exact ha3 x hx

/-- After any `is_allowed` call, each IP's stored bucket map is either
untouched, or it belongs to the supplied IP, its scope check passed, and it
became the swept-and-incremented map. -/
theorem is_allowed_ip_buckets (rl : RateLimiter) (t : Timestamp)
    (u : Option ℤ) (i : Option String) (x : String) :
    ipBucketsOf (is_allowed rl t u i).2 x = ipBucketsOf rl x ∨
    (i = some x ∧
     ¬ rl.ip_limit ≤ sumValues (cleanupExpired (ipBucketsOf rl x) rl.ip_window t) ∧
     ipBucketsOf (is_allowed rl t u i).2 x
       = incrB (cleanupExpired (ipBucketsOf rl x) rl.ip_window t) t) := by
  by_cases hg : rl.global_limit ≤ sumValues (cleanupExpired rl.global_requests rl.global_window t)
  · rw [is_allowed_deny_global rl t u i hg]
    exact Or.inl rfl
  · rw [is_allowed_allow_global rl t u i hg]
    set rl1 : RateLimiter := { rl with
      global_requests := incrB (cleanupExpired rl.global_requests rl.global_window t) t }
      with hrl1
    set rl2 : RateLimiter := (userStep rl1 t u).2 with hrl2
    have hbuck : ∀ y, ipBucketsOf rl2 y = ipBucketsOf rl y := by
      intro y
      show (alistFind y rl2.ip_requests).getD [] = _
      rw [(userStep_frame rl1 t u).2.1]
      rfl
    obtain ⟨cg1, cg2, cu1, cu2, ci1, ci2⟩ := (userStep_frame rl1 t u).2.2
    cases hu : (userStep rl1 t u).1 with
    | false =>
      simp only [hu, Bool.false_eq_true, if_false]
      exact Or.inl (hbuck x)
    | true =>
      simp only [hu, if_true]
      cases i with
      | none =>
        exact Or.inl (hbuck x)
      | some ipx =>
        by_cases hi : rl2.ip_limit ≤
            sumValues (cleanupExpired (ipBucketsOf rl2 ipx) rl2.ip_window t)
        · obtain ⟨hd1, hd2⟩ := ipStep_deny_char rl2 t ipx hi
          exact Or.inl ((hd2 x).trans (hbuck x))
        · obtain ⟨ha1, ha2, ha3⟩ := ipStep_allow_char rl2 t ipx hi
          by_cases hx : x = ipx
          · subst hx
            right
            refine ⟨rfl, ?_, ?_⟩
            · rw [← ci1, ← ci2, ← hbuck x]
              exact hi
            · rw [ha2, hbuck x, ci2]
          · exact Or.inl ((ha3 x hx).trans (hbuck x))

theorem init_inWindowBound (gl : ℕ) (gw : ℚ) (ul : ℕ) (uw : ℚ) (il : ℕ) (iw : ℚ)
    (t : Timestamp) : InWindowBound (RateLimiter.init gl gw ul uw il iw) t := by
  refine ⟨?_, fun uid => ?_, fun ip => ?_⟩ <;>
    simp [RateLimiter.init, cleanupExpired, sumValues, userBucketsOf, ipBucketsOf, alistFind]

theorem inWindowBound_mono {rl : RateLimiter} {t t' : Timestamp} (h : t ≤ t')
    (hb : InWindowBound rl t) : InWindowBound rl t' :=
  ⟨le_trans (sumValues_cleanup_monotime h) hb.1,
   fun uid => le_trans (sumValues_cleanup_monotime h) (hb.2.1 uid),
   fun ip => le_trans (sumValues_cleanup_monotime h) (hb.2.2 ip)⟩

/-- One `is_allowed` call preserves the sliding-window bound at the call's
own time, for every key of every scope. -/
theorem is_allowed_preserves_bound (rl : RateLimiter) (t : Timestamp)
    (u : Option ℤ) (i : Option String)
    (hgw : 0 ≤ rl.global_window) (huw : 0 ≤ rl.user_window) (hiw : 0 ≤ rl.ip_window)
    (hb : InWindowBound rl t) :
    InWindowBound (is_allowed rl t u i).2 t := by
  obtain ⟨e1, e2, e3, e4, e5, e6⟩ := is_allowed_config rl t u i
  refine ⟨?_, fun uid => ?_, fun ip => ?_⟩
  · rw [e1, e2, is_allowed_global_requests]
    by_cases hg : rl.global_limit ≤
        sumValues (cleanupExpired rl.global_requests rl.global_window t)
    · rw [admitB_deny hg]
      show sumValues (cleanupExpired (cleanupExpired rl.global_requests rl.global_window t)
        rl.global_window t) ≤ rl.global_limit
      rw [cleanup_idem]
      exact hb.1
    · rw [admitB_allow hg]
      have hkeys : ∀ p ∈ incrB (cleanupExpired rl.global_requests rl.global_window t) t,
          t - p.1 ≤ rl.global_window := by
        intro p hp
        rcases mem_incr hp with h1 | h1
        · rw [h1]
          simpa using hgw
        · exact (mem_cleanup h1).2
      show sumValues (cleanupExpired
        (incrB (cleanupExpired rl.global_requests rl.global_window t) t)
        rl.global_window t) ≤ rl.global_limit
      rw [cleanup_eq_self hkeys, sumValues_incr]
      omega
  · rw [e3, e4]
    rcases is_allowed_user_buckets rl t u i uid with h | ⟨_, hroom, heq⟩
    · rw [h]
      exact hb.2.1 uid
    · rw [heq]
      have hkeys : ∀ p ∈ incrB (cleanupExpired (userBucketsOf rl uid) rl.user_window t) t,
          t - p.1 ≤ rl.user_window := by
        intro p hp
        rcases mem_incr hp with h1 | h1
        · rw [h1]
          simpa using huw
        · exact (mem_cleanup h1).2
      rw [cleanup_eq_self hkeys, sumValues_incr]
      omega
  · rw [e5, e6]
    rcases is_allowed_ip_buckets rl t u i ip with h | ⟨_, hroom, heq⟩
    · rw [h]
      exact hb.2.2 ip
    · rw [heq]
      have hkeys : ∀ p ∈ incrB (cleanupExpired (ipBucketsOf rl ip) rl.ip_window t) t,
          t - p.1 ≤ rl.ip_window := by
        intro p hp
        rcases mem_incr hp with h1 | h1
        · rw [h1]
          simpa using hiw
        · exact (mem_cleanup h1).2
      rw [cleanup_eq_self hkeys, sumValues_incr]
      omega

theorem runCalls_config : ∀ (cs : List Call) (rl : RateLimiter),
    sameConfig rl (runCalls rl cs).2 := by
  intro cs
  induction cs with
  | nil => exact fun rl => ⟨rfl, rfl, rfl, rfl, rfl, rfl⟩
  | cons c cs ih =>
    intro rl
    simp only [runCalls]
    exact sameConfig_trans (is_allowed_config rl c.t c.uid c.ip)
      (ih (is_allowed rl c.t c.uid c.ip).2)

theorem runCalls_preserves_bound :
    ∀ (cs : List Call) (rl : RateLimiter) (t0 : Timestamp),
      0 ≤ rl.global_window → 0 ≤ rl.user_window → 0 ≤ rl.ip_window →
      InWindowBound rl t0 →
      (∀ c ∈ cs, t0 ≤ c.t) →
      List.Pairwise (fun a b : Call => a.t ≤ b.t) cs →
      ∀ t' : Timestamp, t0 ≤ t' → (∀ c ∈ cs, c.t ≤ t') →
      InWindowBound (runCalls rl cs).2 t' := by
  intro cs
  induction cs with
  | nil =>
    intro rl t0 _ _ _ hb _ _ t' ht' _
    exact inWindowBound_mono ht' hb
  | cons c cs ih =>
    intro rl t0 hgw huw hiw hb hlow hpw t' ht' hhigh
    have hbc : InWindowBound rl c.t :=
      inWindowBound_mono (hlow c (List.mem_cons_self _ _)) hb
    have hb2 : InWindowBound (is_allowed rl c.t c.uid c.ip).2 c.t :=
      is_allowed_preserves_bound rl c.t c.uid c.ip hgw huw hiw hbc
    obtain ⟨f1, f2, f3, f4, f5, f6⟩ := is_allowed_config rl c.t c.uid c.ip
    simp only [runCalls]
    exact ih (is_allowed rl c.t c.uid c.ip).2 c.t
      (by rw [f2]; exact hgw) (by rw [f4]; exact huw) (by rw [f6]; exact hiw)
      hb2
      (fun c' hc' => (List.pairwise_cons.1 hpw).1 c' hc')
      (List.pairwise_cons.1 hpw).2
      t' (hhigh c (List.mem_cons_self _ _))
      (fun c' hc' => hhigh c' (List.mem_cons_of_mem _ hc'))

/-- From a fresh limiter, a nondecreasing run of calls leaves the
sliding-window bound intact at any time at or past the last call. -/
theorem runCalls_init_bound (gl : ℕ) (gw : ℚ) (ul : ℕ) (uw : ℚ) (il : ℕ) (iw : ℚ)
    (hgw : 0 ≤ gw) (huw : 0 ≤ uw) (hiw : 0 ≤ iw) :
    ∀ (cs : List Call),
      List.Pairwise (fun a b : Call => a.t ≤ b.t) cs →
      ∀ t' : Timestamp, (∀ c ∈ cs, c.t ≤ t') →
      InWindowBound (runCalls (RateLimiter.init gl gw ul uw il iw) cs).2 t' := by
  intro cs
  cases cs with
  | nil =>
    intro _ t' _
    exact init_inWindowBound gl gw ul uw il iw t'
  | cons c0 cs0 =>
    intro hpw t' hhigh
    refine runCalls_preserves_bound (c0 :: cs0) (RateLimiter.init gl gw ul uw il iw) c0.t
      hgw huw hiw (init_inWindowBound gl gw ul uw il iw c0.t) ?_ hpw t'
      (hhigh c0 (List.mem_cons_self _ _)) hhigh
    intro c' hc'
    rcases List.mem_cons.1 hc' with h | h
    · exact le_of_eq (congrArg Call.t h).symm
    · exact (List.pairwise_cons.1 hpw).1 c' h

/-- C3: starting from a freshly constructed limiter with nonnegative
windows, after any nondecreasing sequence of `is_allowed` calls whose last
call is a successful admission, every tracked key of the per-user and
per-IP scopes — and the global scope as well — has its in-window bucket sum
bounded by the scope's limit, at the admission time and at any later time.
(The global scope moreover satisfies this bound after every call, admitted
or not: its only exception is that it may be incremented even when the
overall admission is denied by a narrower scope, which cannot push it past
its own limit.) -/
theorem C3_invariant_after_successful_admission
    (gl : ℕ) (gw : ℚ) (ul : ℕ) (uw : ℚ) (il : ℕ) (iw : ℚ)
    (hgw : 0 ≤ gw) (huw : 0 ≤ uw) (hiw : 0 ≤ iw)
    (cs : List Call) (c : Call)
    (hpw : List.Pairwise (fun a b : Call => a.t ≤ b.t) (cs ++ [c]))
    (_hadm : (is_allowed (runCalls (RateLimiter.init gl gw ul uw il iw) cs).2
        c.t c.uid c.ip).1 = true)
    (t' : Timestamp) (ht' : c.t ≤ t') :
    InWindowBound (is_allowed (runCalls (RateLimiter.init gl gw ul uw il iw) cs).2
        c.t c.uid c.ip).2 t' := by
  obtain ⟨hpw1, hpw2, hpw3⟩ := List.pairwise_append.1 hpw
  obtain ⟨g1, g2, g3, g4, g5, g6⟩ :=
    runCalls_config cs (RateLimiter.init gl gw ul uw il iw)
  have hbound : InWindowBound (runCalls (RateLimiter.init gl gw ul uw il iw) cs).2 c.t :=
    runCalls_init_bound gl gw ul uw il iw hgw huw hiw cs hpw1 c.t
      (fun c' hc' => hpw3 c' hc' c (List.mem_singleton_self c))
  have hstep : InWindowBound (is_allowed (runCalls (RateLimiter.init gl gw ul uw il iw) cs).2
      c.t c.uid c.ip).2 c.t := by
    refine is_allowed_preserves_bound _ c.t c.uid c.ip ?_ ?_ ?_ hbound
    · rw [g2]; exact hgw
    · rw [g4]; exact huw
    · rw [g6]; exact hiw
  exact inWindowBound_mono ht' hstep

/-- Witness for C3: a default-configured limiter, one prior call at time 0
and a successful admission by user 7 at time 1, checked at time 1. -/
theorem C3_witness :
    (is_allowed (runCalls (RateLimiter.init 100 60 10 60 50 60)
        [⟨0, some 7, none⟩]).2 1 (some 7) none).1 = true ∧
    InWindowBound (is_allowed (runCalls (RateLimiter.init 100 60 10 60 50 60)
        [⟨0, some 7, none⟩]).2 1 (some 7) none).2 1 := by
  have hadm : (is_allowed (runCalls (RateLimiter.init 100 60 10 60 50 60)
      [⟨0, some 7, none⟩]).2 1 (some 7) none).1 = true := by
    norm_num [runCalls, is_allowed, globalStep, userStep, ipStep, cleanupExpired,
      sumValues, incrB, alistFind, alistSet, RateLimiter.init]
  refine ⟨hadm, ?_⟩
  exact C3_invariant_after_successful_admission 100 60 10 60 50 60
    (by norm_num) (by norm_num) (by norm_num)
    [⟨0, some 7, none⟩] ⟨1, some 7, none⟩
    (by norm_num [List.pairwise_cons]) hadm 1 (le_refl _)

/-- C4: a call to a wrapped callable with the throttle's retained sum at or
over `limit` does not execute the callable (the outcome is the same for any
wrapped callable), raises the rate-limit violation and commits only the
sweep; otherwise the bucket for the current timestamp is incremented, the
callable executes and its result is returned unchanged.  Concretely with
`limit = 3`, `window = 10`: calls at times 0, 1, 2 succeed, the call at
time 3 raises, and the call at time 14 (11 s later) succeeds again. -/
theorem C4_throttle_deny_or_execute :
    (∀ (α : Type) (limit : ℕ) (w : ℚ) (name : String) (f : Unit → α)
       (st : Buckets) (t : Timestamp),
      limit ≤ sumValues (cleanupExpired st w t) →
      (throttleWrapper limit w name f st t).value = none ∧
      (throttleWrapper limit w name f st t).raised = some ⟨"Rate limit exceeded"⟩ ∧
      (throttleWrapper limit w name f st t).requests = cleanupExpired st w t ∧
      ∀ g : Unit → α,
        throttleWrapper limit w name f st t = throttleWrapper limit w name g st t) ∧
    (∀ (α : Type) (limit : ℕ) (w : ℚ) (name : String) (f : Unit → α)
       (st : Buckets) (t : Timestamp),
      ¬ limit ≤ sumValues (cleanupExpired st w t) →
      (throttleWrapper limit w name f st t).value = some (f ()) ∧
      (throttleWrapper limit w name f st t).raised = none ∧
      (throttleWrapper limit w name f st t).requests = incrB (cleanupExpired st w t) t) ∧
    (throttleRun 3 10 "op" (fun _ => (0 : ℕ)) [] [0, 1, 2, 3, 14]).1
      = [true, true, true, false, true] := by
  refine ⟨?_, ?_, ?_⟩
  · intro α limit w name f st t h
    refine ⟨?_, ?_, ?_, fun g => ?_⟩ <;> simp [throttleWrapper, if_pos h]
  · intro α limit w name f st t h
    refine ⟨?_, ?_, ?_⟩ <;> simp [throttleWrapper, if_neg h]
  · norm_num [throttleRun, throttleWrapper, cleanupExpired, sumValues, incrB,
      alistFind, alistSet]

/-- Witness for C4: both branches at concrete inputs — a throttle with
limit 0 denies immediately without executing, and a throttle with limit 3
on empty state executes the callable and returns its value 5. -/
theorem C4_witness :
    ((throttleWrapper 0 10 "op" (fun _ => (5 : ℕ)) [] 0).value = none ∧
      (throttleWrapper 0 10 "op" (fun _ => (5 : ℕ)) [] 0).raised
        = some ⟨"Rate limit exceeded"⟩ ∧
      (throttleWrapper 0 10 "op" (fun _ => (5 : ℕ)) [] 0).requests
        = cleanupExpired [] 10 0 ∧
      ∀ g : Unit → ℕ,
        throttleWrapper 0 10 "op" (fun _ => (5 : ℕ)) [] 0
          = throttleWrapper 0 10 "op" g [] 0) ∧
    ((throttleWrapper 3 10 "op" (fun _ => (5 : ℕ)) [] 0).value = some 5 ∧
      (throttleWrapper 3 10 "op" (fun _ => (5 : ℕ)) [] 0).raised = none ∧
      (throttleWrapper 3 10 "op" (fun _ => (5 : ℕ)) [] 0).requests
        = incrB (cleanupExpired [] 10 0) 0) :=
  ⟨C4_throttle_deny_or_execute.1 ℕ 0 10 "op" (fun _ => 5) [] 0
      (by norm_num [cleanupExpired, sumValues]),
   C4_throttle_deny_or_execute.2.1 ℕ 3 10 "op" (fun _ => 5) [] 0
      (by norm_num [cleanupExpired, sumValues])⟩

/-! ## `get_wait_time` lemmas (claims C5, C6, C8) -/

/-- For nonnegative windows, `get_wait_time` is the maximum of the three
per-scope contributions. -/
theorem get_wait_time_eq_max (rl : RateLimiter) (t : Timestamp)
    (u : Option ℤ) (i : Option String)
    (hgw : 0 ≤ rl.global_window) (huw : 0 ≤ rl.user_window) (hiw : 0 ≤ rl.ip_window) :
    (get_wait_time rl t u i).1
      = max (max (globalScopeWait rl t) (userScopeWait rl t u))
          (ipScopeWait rl t i) := by
  cases u <;> cases i <;>
    (simp only [get_wait_time, globalScopeWait, userScopeWait, ipScopeWait]
     repeat' split
     all_goals simp_all [max_def]
     all_goals (split_ifs <;> linarith))

theorem get_wait_time_nonneg (rl : RateLimiter) (t : Timestamp)
    (u : Option ℤ) (i : Option String) :
    0 ≤ (get_wait_time rl t u i).1 := by
  simp only [get_wait_time]
  repeat' split
  all_goals simp [le_max_iff]

/-- A call that `is_allowed` admits passes every applicable scope check. -/
theorem is_allowed_true_facts (rl : RateLimiter) (t : Timestamp)
    (u : Option ℤ) (i : Option String)
    (h : (is_allowed rl t u i).1 = true) :
    ¬ rl.global_limit ≤ sumValues (cleanupExpired rl.global_requests rl.global_window t) ∧
    (∀ uid, u = some uid →
      ¬ rl.user_limit ≤ sumValues (cleanupExpired (userBucketsOf rl uid) rl.user_window t)) ∧
    (∀ ip, i = some ip →
      ¬ rl.ip_limit ≤ sumValues (cleanupExpired (ipBucketsOf rl ip) rl.ip_window t)) := by
  have hg : ¬ rl.global_limit ≤
      sumValues (cleanupExpired rl.global_requests rl.global_window t) := by
    intro hg
    rw [is_allowed_deny_global rl t u i hg] at h
    simp at h
  have hU : ∀ uid, u = some uid →
      ¬ rl.user_limit ≤ sumValues (cleanupExpired (userBucketsOf rl uid) rl.user_window t) := by
    intro uid hu hover
    subst hu
    rw [(is_allowed_user_denied rl t uid i hg hover).1] at h
    simp at h
  have hI : ∀ ip, i = some ip →
      ¬ rl.ip_limit ≤ sumValues (cleanupExpired (ipBucketsOf rl ip) rl.ip_window t) := by
    intro ip hi hover
    subst hi
    rw [(is_allowed_ip_denied rl t u ip hg hU hover).1] at h
    simp at h
  exact ⟨hg, hU, hI⟩

/-- When no applicable scope is at or over its limit, `get_wait_time`
returns zero. -/
theorem get_wait_time_zero (rl : RateLimiter) (t : Timestamp)
    (u : Option ℤ) (i : Option String)
    (hg : ¬ rl.global_limit ≤ sumValues (cleanupExpired rl.global_requests rl.global_window t))
    (hu : ∀ uid, u = some uid →
      ¬ rl.user_limit ≤ sumValues (cleanupExpired (userBucketsOf rl uid) rl.user_window t))
    (hi : ∀ ip, i = some ip →
      ¬ rl.ip_limit ≤ sumValues (cleanupExpired (ipBucketsOf rl ip) rl.ip_window t)) :
    (get_wait_time rl t u i).1 = 0 := by
  have hu' : ∀ uid ur, u = some uid → alistFind uid rl.user_requests = some ur →
      ¬ rl.user_limit ≤ sumValues (cleanupExpired ur rl.user_window t) := by
    intro uid ur huid hf
    have h2 := hu uid huid
    have : userBucketsOf rl uid = ur := by
      unfold userBucketsOf
      rw [hf]
      rfl
    rwa [this] at h2
  have hi' : ∀ ip ir, i = some ip → alistFind ip rl.ip_requests = some ir →
      ¬ rl.ip_limit ≤ sumValues (cleanupExpired ir rl.ip_window t) := by
    intro ip ir hip hf
    have h2 := hi ip hip
    have : ipBucketsOf rl ip = ir := by
      unfold ipBucketsOf
      rw [hf]
      rfl
    rwa [this] at h2
  simp only [get_wait_time, if_neg hg]
  cases u with
  | none =>
    cases i with
    | none => rfl
    | some ipx =>
      cases hf : alistFind ipx rl.ip_requests with
      | none => simp [hf]
      | some ir => simp [hf, if_neg (hi' ipx ir rfl hf)]
  | some uid =>
    cases hfU : alistFind uid rl.user_requests with
    | none =>
      cases i with
      | none => simp [hfU]
      | some ipx =>
        cases hf : alistFind ipx rl.ip_requests with
        | none => simp [hfU, hf]
        | some ir => simp [hfU, hf, if_neg (hi' ipx ir rfl hf)]
    | some ur =>
      have hnu := hu' uid ur rfl hfU
      cases i with
      | none => simp [hfU, if_neg hnu]
      | some ipx =>
        cases hf : alistFind ipx rl.ip_requests with
        | none => simp [hfU, hf, if_neg hnu]
        | some ir => simp [hfU, hf, if_neg hnu, if_neg (hi' ipx ir rfl hf)]

theorem globalScopeWait_over (rl : RateLimiter) (t : Timestamp)
    (hover : rl.global_limit ≤
      sumValues (cleanupExpired rl.global_requests rl.global_window t)) :
    globalScopeWait rl t = rl.global_window := by
  simp [globalScopeWait, if_pos hover]

theorem userScopeWait_over (rl : RateLimiter) (t : Timestamp) (uid : ℤ)
    (hpos : 1 ≤ rl.user_limit)
    (hover : rl.user_limit ≤
      sumValues (cleanupExpired (userBucketsOf rl uid) rl.user_window t)) :
    userScopeWait rl t (some uid) = rl.user_window := by
  cases hf : alistFind uid rl.user_requests with
  | none =>
    exfalso
    have hb : userBucketsOf rl uid = [] := by
      unfold userBucketsOf
      rw [hf]
      rfl
    rw [hb] at hover
    simp [cleanupExpired, sumValues] at hover
    omega
  | some ur =>
    have hur : userBucketsOf rl uid = ur := by
      unfold userBucketsOf
      rw [hf]
      rfl
    rw [hur] at hover
    simp [userScopeWait, hf, if_pos hover]

theorem ipScopeWait_over (rl : RateLimiter) (t : Timestamp) (ip : String)
    (hpos : 1 ≤ rl.ip_limit)
    (hover : rl.ip_limit ≤
      sumValues (cleanupExpired (ipBucketsOf rl ip) rl.ip_window t)) :
    ipScopeWait rl t (some ip) = rl.ip_window := by
  cases hf : alistFind ip rl.ip_requests with
  | none =>
    exfalso
    have hb : ipBucketsOf rl ip = [] := by
      unfold ipBucketsOf
      rw [hf]
      rfl
    rw [hb] at hover
    simp [cleanupExpired, sumValues] at hover
    omega
  | some ir =>
    have hir : ipBucketsOf rl ip = ir := by
      unfold ipBucketsOf
      rw [hf]
      rfl
    rw [hir] at hover
    simp [ipScopeWait, hf, if_pos hover]

/-- C5, counterexample: with user limit 0, an untracked user key is at or
over its limit (its in-window sum 0 ≥ 0), the user scope is applicable (a
user id is supplied), yet `get_wait_time` returns 0, not the configured
user window 60: the code skips keys that are not present in the map, so the
claim "returns exactly the configured window for any applicable scope whose
key is currently at or over its limit" fails. -/
theorem C5_wait_time_counterexample :
    (RateLimiter.init 100 60 0 60 50 60).user_limit ≤
      sumValues (cleanupExpired
        (userBucketsOf (RateLimiter.init 100 60 0 60 50 60) 7)
        (RateLimiter.init 100 60 0 60 50 60).user_window 0) ∧
    (get_wait_time (RateLimiter.init 100 60 0 60 50 60) 0 (some 7) none).1 = 0 ∧
    (RateLimiter.init 100 60 0 60 50 60).user_window = 60 ∧
    (0 : ℚ) ≠ 60 := by
  refine ⟨?_, ?_, ?_, ?_⟩ <;>
    norm_num [RateLimiter.init, get_wait_time, userBucketsOf, cleanupExpired,
      sumValues, alistFind]

/-- C5, amended: `get_wait_time` returns 0 whenever the next `is_allowed`
call with the same keys would be admitted, and the result is always ≥ 0.
For nonnegative windows it returns the maximum of the three per-scope
contributions, where each applicable *tracked* scope at or over its limit
contributes exactly its configured window and every other scope contributes
0; a scope with a positive limit that is at or over its limit is
necessarily tracked, so it always contributes its full window (an untracked
user/IP key only escapes this when its limit is 0, as the counterexample
shows). -/
theorem C5_wait_time_amended :
    (∀ (rl : RateLimiter) (t : Timestamp) (u : Option ℤ) (i : Option String),
      0 ≤ rl.global_window → 0 ≤ rl.user_window → 0 ≤ rl.ip_window →
      (get_wait_time rl t u i).1
        = max (max (globalScopeWait rl t) (userScopeWait rl t u))
            (ipScopeWait rl t i)) ∧
    (∀ (rl : RateLimiter) (t : Timestamp) (u : Option ℤ) (i : Option String),
      (is_allowed rl t u i).1 = true → (get_wait_time rl t u i).1 = 0) ∧
    (∀ (rl : RateLimiter) (t : Timestamp) (u : Option ℤ) (i : Option String),
      0 ≤ (get_wait_time rl t u i).1) ∧
    (∀ (rl : RateLimiter) (t : Timestamp),
      rl.global_limit ≤ sumValues (cleanupExpired rl.global_requests rl.global_window t) →
      globalScopeWait rl t = rl.global_window) ∧
    (∀ (rl : RateLimiter) (t : Timestamp) (uid : ℤ),
      1 ≤ rl.user_limit →
      rl.user_limit ≤ sumValues (cleanupExpired (userBucketsOf rl uid) rl.user_window t) →
      userScopeWait rl t (some uid) = rl.user_window) ∧
    (∀ (rl : RateLimiter) (t : Timestamp) (ip : String),
      1 ≤ rl.ip_limit →
      rl.ip_limit ≤ sumValues (cleanupExpired (ipBucketsOf rl ip) rl.ip_window t) →
      ipScopeWait rl t (some ip) = rl.ip_window) := by
  refine ⟨?_, ?_, ?_, ?_, ?_, ?_⟩
  · exact fun rl t u i hgw huw hiw => get_wait_time_eq_max rl t u i hgw huw hiw
  · intro rl t u i h
    obtain ⟨hg, hU, hI⟩ := is_allowed_true_facts rl t u i h
    exact get_wait_time_zero rl t u i hg hU hI
  · exact fun rl t u i => get_wait_time_nonneg rl t u i
  · exact fun rl t h => globalScopeWait_over rl t h
  · exact fun rl t uid h1 h2 => userScopeWait_over rl t uid h1 h2
  · exact fun rl t ip h1 h2 => ipScopeWait_over rl t ip h1 h2

/-- Witness for C5 (amended): the characterization, the admitted-implies-0
direction and the exactness parts, each at a concrete state; user 7 and IP
"a" each hold one fresh entry against limit 1, so their scope waits are the
full window 60. -/
theorem C5_witness :
    (get_wait_time (RateLimiter.init 100 60 10 60 50 60) 0 (some 7) none).1
      = max (max (globalScopeWait (RateLimiter.init 100 60 10 60 50 60) 0)
          (userScopeWait (RateLimiter.init 100 60 10 60 50 60) 0 (some 7)))
          (ipScopeWait (RateLimiter.init 100 60 10 60 50 60) 0 none) ∧
    (get_wait_time (RateLimiter.init 100 60 10 60 50 60) 0 (some 7) none).1 = 0 ∧
    0 ≤ (get_wait_time (RateLimiter.init 100 60 10 60 50 60) 0 (some 7) none).1 ∧
    globalScopeWait { RateLimiter.init 1 60 10 60 50 60 with
        global_requests := [(0, 1)] } 0 = 60 ∧
    userScopeWait { RateLimiter.init 100 60 1 60 50 60 with
        user_requests := [(7, [(0, 1)])] } 0 (some 7) = 60 ∧
    ipScopeWait { RateLimiter.init 100 60 10 60 1 60 with
        ip_requests := [("a", [(0, 1)])] } 0 (some "a") = 60 := by
  refine ⟨?_, ?_, ?_, ?_, ?_, ?_⟩
  · exact C5_wait_time_amended.1 (RateLimiter.init 100 60 10 60 50 60) 0 (some 7) none
      (by norm_num [RateLimiter.init]) (by norm_num [RateLimiter.init])
      (by norm_num [RateLimiter.init])
  · exact C5_wait_time_amended.2.1 (RateLimiter.init 100 60 10 60 50 60) 0 (some 7) none
      (by norm_num [is_allowed, globalStep, userStep, ipStep, RateLimiter.init,
        cleanupExpired, sumValues, incrB, alistFind, alistSet])
  · exact C5_wait_time_amended.2.2.1 (RateLimiter.init 100 60 10 60 50 60) 0 (some 7) none
  · exact (C5_wait_time_amended.2.2.2.1 { RateLimiter.init 1 60 10 60 50 60 with
        global_requests := [(0, 1)] } 0
      (by norm_num [RateLimiter.init, cleanupExpired, sumValues])).trans
      (by norm_num [RateLimiter.init])
  · exact (C5_wait_time_amended.2.2.2.2.1 { RateLimiter.init 100 60 1 60 50 60 with
        user_requests := [(7, [(0, 1)])] } 0 7
      (by norm_num [RateLimiter.init])
      (by norm_num [RateLimiter.init, cleanupExpired, sumValues, userBucketsOf,
        alistFind])).trans
      (by norm_num [RateLimiter.init])
  · exact (C5_wait_time_amended.2.2.2.2.2 { RateLimiter.init 100 60 10 60 1 60 with
        ip_requests := [("a", [(0, 1)])] } 0 "a"
      (by norm_num [RateLimiter.init])
      (by norm_num [RateLimiter.init, cleanupExpired, sumValues, ipBucketsOf,
        alistFind])).trans
      (by norm_num [RateLimiter.init])

/-! ## Skip behaviour of absent keys (claim C6) -/

theorem userStep_fst_congr (rl rl' : RateLimiter) (t : Timestamp) (u : Option ℤ)
    (h1 : rl'.user_requests = rl.user_requests) (h2 : rl'.user_limit = rl.user_limit)
    (h3 : rl'.user_window = rl.user_window) :
    (userStep rl' t u).1 = (userStep rl t u).1 := by
  cases u with
  | none => rfl
  | some uid =>
    have hb : userBucketsOf rl' uid = userBucketsOf rl uid := by
      unfold userBucketsOf
      rw [h1]
    by_cases hu : rl.user_limit ≤
        sumValues (cleanupExpired (userBucketsOf rl uid) rl.user_window t)
    · have hu' : rl'.user_limit ≤
          sumValues (cleanupExpired (userBucketsOf rl' uid) rl'.user_window t) := by
        rw [h2, h3, hb]
        exact hu
      rw [(userStep_deny_char rl' t uid hu').1, (userStep_deny_char rl t uid hu).1]
    · have hu' : ¬ rl'.user_limit ≤
          sumValues (cleanupExpired (userBucketsOf rl' uid) rl'.user_window t) := by
        rw [h2, h3, hb]
        exact hu
      rw [(userStep_allow_char rl' t uid hu').1, (userStep_allow_char rl t uid hu).1]

theorem ipStep_fst_congr (rl rl' : RateLimiter) (t : Timestamp) (i : Option String)
    (h1 : rl'.ip_requests = rl.ip_requests) (h2 : rl'.ip_limit = rl.ip_limit)
    (h3 : rl'.ip_window = rl.ip_window) :
    (ipStep rl' t i).1 = (ipStep rl t i).1 := by
  cases i with
  | none => rfl
  | some ip =>
    have hb : ipBucketsOf rl' ip = ipBucketsOf rl ip := by
      unfold ipBucketsOf
      rw [h1]
    by_cases hi : rl.ip_limit ≤
        sumValues (cleanupExpired (ipBucketsOf rl ip) rl.ip_window t)
    · have hi' : rl'.ip_limit ≤
          sumValues (cleanupExpired (ipBucketsOf rl' ip) rl'.ip_window t) := by
        rw [h2, h3, hb]
        exact hi
      rw [(ipStep_deny_char rl' t ip hi').1, (ipStep_deny_char rl t ip hi).1]
    · have hi' : ¬ rl'.ip_limit ≤
          sumValues (cleanupExpired (ipBucketsOf rl' ip) rl'.ip_window t) := by
        rw [h2, h3, hb]
        exact hi
      rw [(ipStep_allow_char rl' t ip hi').1, (ipStep_allow_char rl t ip hi).1]

/-- With no user id supplied, an `is_allowed` call that passes the global
check is exactly the IP block (of an arbitrary optional IP) run on the
global-incremented state. -/
theorem is_allowed_none_any (rl : RateLimiter) (t : Timestamp) (i : Option String)
    (hg : ¬ rl.global_limit ≤ sumValues (cleanupExpired rl.global_requests rl.global_window t)) :
    is_allowed rl t none i =
      ipStep { rl with
               global_requests :=
                 incrB (cleanupExpired rl.global_requests rl.global_window t) t }
        t i := by
  rw [is_allowed_allow_global rl t none i hg]
  simp [userStep]

/-- C6: `is_allowed` and `get_wait_time` are total functions of the limiter
state — the embedding has no exception path, mirroring the source, which
contains no raise and no fallible operation in either method — and an
absent optional key simply skips that scope's check: with no user id the
stored user maps are untouched and the decision and wait time are
independent of all user state, and symmetrically for an absent IP. -/
theorem C6_no_exceptions_absent_key_skips :
    (∀ (rl : RateLimiter) (t : Timestamp) (i : Option String),
      (is_allowed rl t none i).2.user_requests = rl.user_requests) ∧
    (∀ (rl : RateLimiter) (t : Timestamp) (i : Option String) (ur : List (ℤ × Buckets)),
      (is_allowed { rl with user_requests := ur } t none i).1
        = (is_allowed rl t none i).1) ∧
    (∀ (rl : RateLimiter) (t : Timestamp) (u : Option ℤ),
      (is_allowed rl t u none).2.ip_requests = rl.ip_requests) ∧
    (∀ (rl : RateLimiter) (t : Timestamp) (u : Option ℤ) (ir : List (String × Buckets)),
      (is_allowed { rl with ip_requests := ir } t u none).1
        = (is_allowed rl t u none).1) ∧
    (∀ (rl : RateLimiter) (t : Timestamp) (i : Option String) (ur : List (ℤ × Buckets)),
      (get_wait_time { rl with user_requests := ur } t none i).1
        = (get_wait_time rl t none i).1) ∧
    (∀ (rl : RateLimiter) (t : Timestamp) (u : Option ℤ) (ir : List (String × Buckets)),
      (get_wait_time { rl with ip_requests := ir } t u none).1
        = (get_wait_time rl t u none).1) := by
  refine ⟨?_, ?_, ?_, ?_, fun rl t i ur => rfl, fun rl t u ir => rfl⟩
  · intro rl t i
    by_cases hg : rl.global_limit ≤
        sumValues (cleanupExpired rl.global_requests rl.global_window t)
    · rw [is_allowed_deny_global rl t none i hg]
    · rw [is_allowed_none_any rl t i hg]
      exact (ipStep_frame _ t i).2.1
  · intro rl t i ur
    by_cases hg : rl.global_limit ≤
        sumValues (cleanupExpired rl.global_requests rl.global_window t)
    · have hg' : ({ rl with user_requests := ur } : RateLimiter).global_limit ≤
          sumValues (cleanupExpired ({ rl with user_requests := ur } : RateLimiter).global_requests
            ({ rl with user_requests := ur } : RateLimiter).global_window t) := hg
      rw [is_allowed_deny_global _ t none i hg', is_allowed_deny_global rl t none i hg]
    · have hg' : ¬ ({ rl with user_requests := ur } : RateLimiter).global_limit ≤
          sumValues (cleanupExpired ({ rl with user_requests := ur } : RateLimiter).global_requests
            ({ rl with user_requests := ur } : RateLimiter).global_window t) := hg
      rw [is_allowed_none_any _ t i hg', is_allowed_none_any rl t i hg]
      exact ipStep_fst_congr _ _ t i rfl rfl rfl
  · intro rl t u
    by_cases hg : rl.global_limit ≤
        sumValues (cleanupExpired rl.global_requests rl.global_window t)
    · rw [is_allowed_deny_global rl t u none hg]
    · rw [is_allowed_allow_global rl t u none hg]
      cases hbb : (userStep { rl with
          global_requests :=
            incrB (cleanupExpired rl.global_requests rl.global_window t) t } t u).1 with
      | false =>
        simp only [hbb, Bool.false_eq_true, if_false]
        exact (userStep_frame _ t u).2.1
      | true =>
        simp only [hbb, if_true, ipStep]
        exact (userStep_frame _ t u).2.1
  · intro rl t u ir
    set rlb : RateLimiter := { rl with ip_requests := ir } with hrlb
    by_cases hg : rl.global_limit ≤
        sumValues (cleanupExpired rl.global_requests rl.global_window t)
    · have hg' : rlb.global_limit ≤
          sumValues (cleanupExpired rlb.global_requests rlb.global_window t) := hg
      rw [is_allowed_deny_global rlb t u none hg', is_allowed_deny_global rl t u none hg]
    · have hg' : ¬ rlb.global_limit ≤
          sumValues (cleanupExpired rlb.global_requests rlb.global_window t) := hg
      rw [is_allowed_allow_global rlb t u none hg', is_allowed_allow_global rl t u none hg]
      set rl1 : RateLimiter := { rl with
        global_requests := incrB (cleanupExpired rl.global_requests rl.global_window t) t }
        with hrl1
      set rl1b : RateLimiter := { rlb with
        global_requests := incrB (cleanupExpired rlb.global_requests rlb.global_window t) t }
        with hrl1b
      have hb := userStep_fst_congr rl1 rl1b t u rfl rfl rfl
      cases hbb : (userStep rl1 t u).1 with
      | false =>
        have hbb' := hb.trans hbb
        simp only [hbb, hbb', Bool.false_eq_true, if_false]
      | true =>
        have hbb' := hb.trans hbb
        simp only [hbb, hbb', if_true, ipStep]

/-- C7, counterexample: two throttles wrapping distinct callables (named
"f" and "g") deny with *equal* raised values — the fixed
`RuntimeError("Rate limit exceeded")` — so the raised value does not
identify which operation was throttled. -/
theorem C7_counterexample :
    (throttleWrapper 0 10 "f" (fun _ => (0 : ℕ)) [] 0).raised
      = (throttleWrapper 0 10 "g" (fun _ => (0 : ℕ)) [] 0).raised ∧
    (throttleWrapper 0 10 "f" (fun _ => (0 : ℕ)) [] 0).raised
      = some ⟨"Rate limit exceeded"⟩ ∧
    "f" ≠ "g" := by
  refine ⟨?_, ?_, ?_⟩
  · norm_num [throttleWrapper, cleanupExpired, sumValues]
  · norm_num [throttleWrapper, cleanupExpired, sumValues]
  · decide

/-- C7, amended: the throttle path raises exactly one domain error, the
fixed `RuntimeError("Rate limit exceeded")`, only when admission fails; the
raised value itself is independent of the wrapped callable — the operation
is identified only in the warning logged alongside the raise. -/
theorem C7_amended_error_taxonomy :
    (∀ (α : Type) (limit : ℕ) (w : ℚ) (name : String) (f : Unit → α)
       (st : Buckets) (t : Timestamp),
      limit ≤ sumValues (cleanupExpired st w t) →
      (throttleWrapper limit w name f st t).raised = some ⟨"Rate limit exceeded"⟩ ∧
      (throttleWrapper limit w name f st t).logged
        = some ("Function rate limit exceeded: " ++ name)) ∧
    (∀ (α : Type) (limit : ℕ) (w : ℚ) (name : String) (f : Unit → α)
       (st : Buckets) (t : Timestamp),
      ¬ limit ≤ sumValues (cleanupExpired st w t) →
      (throttleWrapper limit w name f st t).raised = none ∧
      (throttleWrapper limit w name f st t).logged = none) := by
  constructor
  · intro α limit w name f st t h
    constructor <;> simp [throttleWrapper, if_pos h]
  · intro α limit w name f st t h
    constructor <;> simp [throttleWrapper, if_neg h]

/-- Witness for C7 (amended): both branches at concrete inputs. -/
theorem C7_witness :
    ((throttleWrapper 0 10 "op" (fun _ => (0 : ℕ)) [] 0).raised
        = some ⟨"Rate limit exceeded"⟩ ∧
      (throttleWrapper 0 10 "op" (fun _ => (0 : ℕ)) [] 0).logged
        = some ("Function rate limit exceeded: " ++ "op")) ∧
    ((throttleWrapper 3 10 "op" (fun _ => (0 : ℕ)) [] 0).raised = none ∧
      (throttleWrapper 3 10 "op" (fun _ => (0 : ℕ)) [] 0).logged = none) :=
  ⟨C7_amended_error_taxonomy.1 ℕ 0 10 "op" (fun _ => 0) [] 0
      (by norm_num [cleanupExpired, sumValues]),
   C7_amended_error_taxonomy.2 ℕ 3 10 "op" (fun _ => 0) [] 0
      (by norm_num [cleanupExpired, sumValues])⟩

/-- C8: `get_wait_time` mutates no counter: the state component of the
transcribed method is exactly the input state — in particular the global
map and every user and IP bucket map are the same after the call as before
it.  (The method only sweeps `.copy()`s of the stored maps.) -/
theorem C8_get_wait_time_mutates_nothing :
    ∀ (rl : RateLimiter) (t : Timestamp) (u : Option ℤ) (i : Option String),
      (get_wait_time rl t u i).2 = rl ∧
      (get_wait_time rl t u i).2.global_requests = rl.global_requests ∧
      (∀ uid : ℤ, userBucketsOf (get_wait_time rl t u i).2 uid = userBucketsOf rl uid) ∧
      (∀ ip : String, ipBucketsOf (get_wait_time rl t u i).2 ip = ipBucketsOf rl ip) :=
  fun _ _ _ _ => ⟨rfl, rfl, fun _ => rfl, fun _ => rfl⟩

/-- C9, counterexample: `is_allowed` observed at time 1.5 records the bucket
key 1.5 — the raw `time.time()` value — which is not an integral number of
seconds, so bucket keys are not "second-level resolution" timestamps. -/
theorem C9_counterexample :
    alistFind ((3 : ℚ)/2) (is_allowed (RateLimiter.init 100 60 10 60 50 60)
        ((3 : ℚ)/2) none none).2.global_requests = some 1 ∧
    ¬ ∃ n : ℤ, ((3 : ℚ)/2) = (n : ℚ) := by
  constructor
  · norm_num [is_allowed, globalStep, userStep, ipStep, RateLimiter.init,
      cleanupExpired, sumValues, incrB, alistFind, alistSet]
  · rintro ⟨n, hn⟩
    have h := congrArg Rat.den hn
    rw [Rat.den_intCast] at h
    norm_num at h

/-- C9, amended: every bucket key recorded by any operation is the exact
observed timestamp `t` (full, possibly sub-second, resolution — never
normalized to a grid): after any `is_allowed` call or throttle invocation,
every key present was either already present or equals `t`; distinct
observed timestamps therefore form their own keys, as the concrete
sub-second run (keys 3/2 and 7/4) shows. -/
theorem C9_amended_raw_timestamp_keys :
    (∀ (rl : RateLimiter) (t : Timestamp) (u : Option ℤ) (i : Option String)
       (p : Timestamp × ℕ), p ∈ (is_allowed rl t u i).2.global_requests →
      p.1 = t ∨ p.1 ∈ rl.global_requests.map Prod.fst) ∧
    (∀ (rl : RateLimiter) (t : Timestamp) (u : Option ℤ) (i : Option String)
       (x : ℤ) (p : Timestamp × ℕ), p ∈ userBucketsOf (is_allowed rl t u i).2 x →
      p.1 = t ∨ p.1 ∈ (userBucketsOf rl x).map Prod.fst) ∧
    (∀ (rl : RateLimiter) (t : Timestamp) (u : Option ℤ) (i : Option String)
       (x : String) (p : Timestamp × ℕ), p ∈ ipBucketsOf (is_allowed rl t u i).2 x →
      p.1 = t ∨ p.1 ∈ (ipBucketsOf rl x).map Prod.fst) ∧
    (∀ (α : Type) (limit : ℕ) (w : ℚ) (name : String) (f : Unit → α)
       (st : Buckets) (t : Timestamp) (p : Timestamp × ℕ),
      p ∈ (throttleWrapper limit w name f st t).requests →
      p.1 = t ∨ p.1 ∈ st.map Prod.fst) ∧
    (is_allowed (is_allowed (RateLimiter.init 100 60 10 60 50 60) ((3 : ℚ)/2)
        none none).2 ((7 : ℚ)/4) none none).2.global_requests
      = [((3 : ℚ)/2, 1), ((7 : ℚ)/4, 1)] := by
  refine ⟨?_, ?_, ?_, ?_, ?_⟩
  · intro rl t u i p hp
    rw [is_allowed_global_requests] at hp
    by_cases hg : rl.global_limit ≤
        sumValues (cleanupExpired rl.global_requests rl.global_window t)
    · rw [admitB_deny hg] at hp
      exact Or.inr (List.mem_map_of_mem Prod.fst (mem_cleanup hp).1)
    · rw [admitB_allow hg] at hp
      rcases mem_incr hp with h1 | h1
      · exact Or.inl h1
      · exact Or.inr (List.mem_map_of_mem Prod.fst (mem_cleanup h1).1)
  · intro rl t u i x p hp
    rcases is_allowed_user_buckets rl t u i x with h | ⟨_, _, heq⟩
    · rw [h] at hp
      exact Or.inr (List.mem_map_of_mem Prod.fst hp)
    · rw [heq] at hp
      rcases mem_incr hp with h1 | h1
      · exact Or.inl h1
      · exact Or.inr (List.mem_map_of_mem Prod.fst (mem_cleanup h1).1)
  · intro rl t u i x p hp
    rcases is_allowed_ip_buckets rl t u i x with h | ⟨_, _, heq⟩
    · rw [h] at hp
      exact Or.inr (List.mem_map_of_mem Prod.fst hp)
    · rw [heq] at hp
      rcases mem_incr hp with h1 | h1
      · exact Or.inl h1
      · exact Or.inr (List.mem_map_of_mem Prod.fst (mem_cleanup h1).1)
  · intro α limit w name f st t p hp
    rw [(throttleWrapper_admitB limit w name f st t).1] at hp
    by_cases hd : limit ≤ sumValues (cleanupExpired st w t)
    · rw [admitB_deny hd] at hp
      exact Or.inr (List.mem_map_of_mem Prod.fst (mem_cleanup hp).1)
    · rw [admitB_allow hd] at hp
      rcases mem_incr hp with h1 | h1
      · exact Or.inl h1
      · exact Or.inr (List.mem_map_of_mem Prod.fst (mem_cleanup h1).1)
  · norm_num [is_allowed, globalStep, userStep, ipStep, RateLimiter.init,
      cleanupExpired, sumValues, incrB, alistFind, alistSet]

/-- Witness for C9 (amended): after the fresh limiter admits a call at
time 3/2, the sole global key 3/2 satisfies the characterization — it
equals the observed timestamp. -/
theorem C9_witness :
    ((3 : ℚ)/2, 1).1 = (3 : ℚ)/2 ∨
    ((3 : ℚ)/2, 1).1 ∈ (RateLimiter.init 100 60 10 60 50 60).global_requests.map Prod.fst :=
  C9_amended_raw_timestamp_keys.1 (RateLimiter.init 100 60 10 60 50 60) ((3 : ℚ)/2)
    none none ((3 : ℚ)/2, 1)
    (by norm_num [is_allowed, globalStep, userStep, ipStep, RateLimiter.init,
      cleanupExpired, sumValues, incrB, alistFind, alistSet])

end Gamdl
